import Mathlib

/-!
Verification of the MT5 multi-account copy-trading reconciliation engine
(`mt5_copier_fixed.py`).

The engine's floats are modelled as exact rationals (`ℚ`), tickets, logins
and magic numbers as `Nat`, Python dicts as insertion-ordered association
lists, and the MetaTrader terminal collaborator as an explicit environment
record supplying the results of every external call.  Each Python method of
`MT5Copier` that participates in the reconciliation logic is translated to a
Lean function of the same name (underscore prefixes dropped); stateful
methods take and return an explicit `CopierState`, and every collaborator
call they issue (create / modify / close / cancel) is recorded in a returned
action trace.
-/

attribute [local semireducible] Rat.add Rat.mul Rat.inv Rat.sub

namespace MT5

/-- Python `abs` on floats, modelled on exact rationals. -/
def pyAbs (x : ℚ) : ℚ := if x < 0 then -x else x

/-- Python builtin `min` on two numbers. -/
def pyMin (a b : ℚ) : ℚ := if a ≤ b then a else b

/-- Python builtin `max` on two numbers. -/
def pyMax (a b : ℚ) : ℚ := if b ≤ a then a else b

/-- Python builtin `round` to an integer: round half to even. -/
def pyRound (x : ℚ) : ℤ :=
  if x - ⌊x⌋ < 1/2 then ⌊x⌋
  else if 1/2 < x - ⌊x⌋ then ⌊x⌋ + 1
  else if ⌊x⌋ % 2 = 0 then ⌊x⌋ else ⌊x⌋ + 1

/-- The absolute comparison tolerance `0.00001` used throughout the copier. -/
def tol : ℚ := 1/100000

/-- Lookup in a Python-dict model (first matching key). -/
def alookup {κ α : Type} [DecidableEq κ] (k : κ) : List (κ × α) → Option α
  | [] => none
  | p :: rest => if k = p.1 then some p.2 else alookup k rest

/-- Python dict assignment `d[k] = v`: overwrite in place or append. -/
def dictInsert {κ α : Type} [DecidableEq κ] (k : κ) (v : α) : List (κ × α) → List (κ × α)
  | [] => [(k, v)]
  | p :: rest => if p.1 = k then (k, v) :: rest else p :: dictInsert k v rest

/-- Python dict deletion `del d[k]` (no-op when the key is absent). -/
def dictErase {κ α : Type} [DecidableEq κ] (k : κ) : List (κ × α) → List (κ × α)
  | [] => []
  | p :: rest => if p.1 = k then rest else p :: dictErase k rest

/-- Python `x in collection` membership test. -/
def elemKey {κ : Type} [DecidableEq κ] (x : κ) : List κ → Bool
  | [] => false
  | y :: rest => if x = y then true else elemKey x rest

/-- `OrderInfo` dataclass: one captured master-side order or position. -/
structure OrderInfo where
  ticket : Nat
  symbol : String
  order_type : Nat
  volume : ℚ
  price : ℚ
  sl : ℚ
  tp : ℚ
  comment : String
  magic : Nat
  time_setup : Nat
  state : Nat
deriving DecidableEq

/-- A live follower-side order/position record as returned by the terminal
(`mt5.orders_get()` / `mt5.positions_get()`).  `price_open` is optional to
model the `hasattr(follower_order, 'price_open')` guard in the source. -/
structure FollowerOrder where
  ticket : Nat
  symbol : String
  type : Nat
  magic : Nat
  sl : ℚ
  tp : ℚ
  price_open : Option ℚ
  comment : String
deriving DecidableEq

/-- `LotCalculationType` enum. -/
inductive LotCalculationType where
  | fixed
  | multiplier
  | percent_balance
  | risk_based
deriving DecidableEq

/-- The symbol metadata consumed by lot sizing. -/
structure SymbolInfo where
  trade_contract_size : ℚ
  trade_tick_value : ℚ
  volume_step : ℚ
deriving DecidableEq

/-- The follower-account configuration fields read by the core. -/
structure AccountConfig where
  login : Nat
  lot_calculation : LotCalculationType
  lot_value : ℚ
  max_lot : ℚ
  min_lot : ℚ
  symbol_mapping : List (String × String)
  magic_number : Nat
  enabled : Bool
deriving DecidableEq

/-- The copier's mutable tracking tables (`self.follower_orders`,
`self.last_master_state`, `self.order_sync_status`, `self.manually_closed`). -/
structure CopierState where
  follower_orders : List (Nat × List (Nat × Nat))
  last_master_state : List (Nat × OrderInfo)
  order_sync_status : List (Nat × List (Nat × String))
  manually_closed : List (Nat × List Nat)
deriving DecidableEq

/-- The tables as initialised in `__init__`. -/
def initialState : CopierState :=
  { follower_orders := [], last_master_state := [], order_sync_status := [], manually_closed := [] }

/-- The payload of a `send_order` call. -/
structure SendRequest where
  symbol : String
  order_type : Nat
  volume : ℚ
  price : ℚ
  sl : ℚ
  tp : ℚ
  comment : String
  magic : Nat
deriving DecidableEq

/-- One collaborator call issued by the engine. -/
inductive Action where
  | create (login : Nat) (masterTicket : Nat) (req : SendRequest)
  | modify (login : Nat) (ticket : Nat) (price sl tp : Option ℚ)
  | close (login : Nat) (ticket : Nat)
  | cancel (login : Nat) (ticket : Nat)
deriving DecidableEq

/-- The follower ticket an action targets (`none` for creates, which target
no existing follower order). -/
def actionFollowerTicket : Action → Option Nat
  | Action.create _ _ _ => none
  | Action.modify _ ticket _ _ _ => some ticket
  | Action.close _ ticket => some ticket
  | Action.cancel _ ticket => some ticket

/-- Per-follower terminal environment for one cycle: connection outcome, the
live order/position snapshots, the account balance, the result of each
`get_symbol_info` call site (715 / 241 / 264, which may differ because each
is a separate terminal call), and the outcome of order execution calls. -/
structure FollowerEnv where
  connectOk : Bool
  pendingOrders : List FollowerOrder
  positions : List FollowerOrder
  balance : Option ℚ
  symInfoCheck : String → Option SymbolInfo
  symInfoPercent : String → Option SymbolInfo
  symInfoRound : String → Option SymbolInfo
  sendResult : SendRequest → Option Nat
  closeResult : Nat → Bool
  cancelResult : Nat → Bool

/-- Whole-cycle environment: the master fetch outcome (`none` models a master
connection failure or an exception during retrieval) and each follower's
terminal environment, keyed by login. -/
structure CycleEnv where
  masterFetch : Option (List OrderInfo)
  followerEnv : Nat → FollowerEnv

/-- Whether the character list `pat` is an initial segment of `s`
(`str.startswith`). -/
def startsWithChars : List Char → List Char → Bool
  | _, [] => true
  | [], _ :: _ => false
  | c :: cs, p :: ps => if c = p then startsWithChars cs ps else false

/-- Python `str.split(':')` on a character list. -/
def splitOnColon : List Char → List (List Char)
  | [] => [[]]
  | c :: rest =>
    if c = ':' then [] :: splitOnColon rest
    else
      match splitOnColon rest with
      | [] => [[c]]
      | g :: gs => (c :: g) :: gs

/-- Helper for `parseNatChars`: accumulate decimal digits, failing on any
non-digit (Python `int(...)` raising `ValueError`). -/
def parseNatCharsAux : List Char → Nat → Option Nat
  | [], acc => some acc
  | c :: rest, acc =>
    if '0' ≤ c ∧ c ≤ '9' then parseNatCharsAux rest (acc * 10 + (c.toNat - '0'.toNat))
    else none

/-- Python `int(s)` for the nonnegative decimal strings the copier handles. -/
def parseNatChars : List Char → Option Nat
  | [] => none
  | c :: rest => parseNatCharsAux (c :: rest) 0

/-- Decode a master ticket from a follower-order comment: the source checks
`comment.startswith('Copy:')` and then takes `int(comment.split(':')[1])`,
skipping the order on `ValueError`/`IndexError`. -/
def parseCopyComment (c : String) : Option Nat :=
  if startsWithChars c.data "Copy:".data then
    match splitOnColon c.data with
    | _ :: second :: _ => parseNatChars second
    | _ => none
  else none

/-- `map_symbol`: exact-match translation table, identity when unmapped. -/
def map_symbol (master_symbol : String) (cfg : AccountConfig) : String :=
  match alookup master_symbol cfg.symbol_mapping with
  | some mapped => mapped
  | none => master_symbol

/-- The tail of `calculate_lot_size`: clamp to `[min_lot, max_lot]`, then, if
symbol metadata is available, round to the nearest multiple of `volume_step`.
A zero `volume_step` makes the Python division raise, and the surrounding
`except` then returns the raw master volume. -/
def clampAndRound (calculated_lot : ℚ) (cfg : AccountConfig) (roundInfo : Option SymbolInfo)
    (master_volume : ℚ) : ℚ :=
  let clamped := pyMax cfg.min_lot (pyMin cfg.max_lot calculated_lot)
  match roundInfo with
  | none => clamped
  | some si =>
    if si.volume_step = 0 then master_volume
    else (pyRound (clamped / si.volume_step) : ℚ) * si.volume_step

/-- `calculate_lot_size`.  `balance` is the `mt5.account_info()` result and
`percentInfo` / `roundInfo` the two `get_symbol_info` call results; `none`
models an unavailable lookup.  A zero sizing denominator makes the Python
division raise, and the `except` returns the raw master volume. -/
def calculate_lot_size (master_volume : ℚ) (cfg : AccountConfig) (balance : Option ℚ)
    (percentInfo roundInfo : Option SymbolInfo) : ℚ :=
  match cfg.lot_calculation with
  | LotCalculationType.fixed => clampAndRound cfg.lot_value cfg roundInfo master_volume
  | LotCalculationType.multiplier =>
    clampAndRound (master_volume * cfg.lot_value) cfg roundInfo master_volume
  | LotCalculationType.percent_balance =>
    match balance with
    | none => master_volume
    | some b =>
      match percentInfo with
      | none => master_volume
      | some si =>
        if si.trade_contract_size * si.trade_tick_value = 0 then master_volume
        else
          clampAndRound ((b * (cfg.lot_value / 100)) / (si.trade_contract_size * si.trade_tick_value))
            cfg roundInfo master_volume
  | LotCalculationType.risk_based =>
    clampAndRound (master_volume * cfg.lot_value) cfg roundInfo master_volume

/-- The stop-loss delta test of `_check_order_modifications`. -/
def sl_changed (m : OrderInfo) (f : FollowerOrder) : Bool :=
  decide (tol < pyAbs (m.sl - f.sl))

/-- The take-profit delta test of `_check_order_modifications`. -/
def tp_changed (m : OrderInfo) (f : FollowerOrder) : Bool :=
  decide (tol < pyAbs (m.tp - f.tp))

/-- The pending-order price delta test of `_check_order_modifications`,
guarded by `hasattr(follower_order, 'price_open')`. -/
def price_changed (m : OrderInfo) (f : FollowerOrder) : Bool :=
  match f.price_open with
  | some fp => decide (tol < pyAbs (m.price - fp))
  | none => false

/-- The parameter set passed to `modify_order`. -/
structure ModifyParams where
  price : Option ℚ
  sl : Option ℚ
  tp : Option ℚ
deriving DecidableEq

/-- The decision core of `_check_order_modifications`: `none` when no field
exceeds tolerance (no modify call), otherwise the parameters of the single
modify call, carrying exactly the changed fields. -/
def check_order_modifications (m : OrderInfo) (f : FollowerOrder) : Option ModifyParams :=
  if sl_changed m f || tp_changed m f || price_changed m f then
    some { price := if price_changed m f then some m.price else none,
           sl := if sl_changed m f then some m.sl else none,
           tp := if tp_changed m f then some m.tp else none }
  else none

/-- The modify calls `_check_order_modifications` issues for one pair. -/
def modificationActions (login : Nat) (m : OrderInfo) (f : FollowerOrder) : List Action :=
  match check_order_modifications m f with
  | some p => [Action.modify login f.ticket p.price p.sl p.tp]
  | none => []

/-- `_has_master_order_changed` (its non-raising body): compare a current
master order with `last_master_state` field by field at tolerance `tol`;
an untracked ticket counts as changed. -/
def has_master_order_changed (last_master_state : List (Nat × OrderInfo)) (m : OrderInfo) : Bool :=
  match alookup m.ticket last_master_state with
  | none => true
  | some lastO =>
    let changes : List String :=
      (if tol < pyAbs (m.price - lastO.price) then ["price"] else [])
        ++ (if tol < pyAbs (m.sl - lastO.sl) then ["sl"] else [])
        ++ (if tol < pyAbs (m.tp - lastO.tp) then ["tp"] else [])
        ++ (if tol < pyAbs (m.volume - lastO.volume) then ["volume"] else [])
    !changes.isEmpty

/-- `_copy_new_order`: map the symbol, skip when the symbol metadata check
fails, otherwise size the volume, submit the create request (comment
`Copy:<master_ticket>`, the follower's magic) and record the link on
success. -/
def copy_new_order (st : CopierState) (m : OrderInfo) (cfg : AccountConfig) (env : FollowerEnv) :
    CopierState × List Action :=
  let symbol := map_symbol m.symbol cfg
  match env.symInfoCheck symbol with
  | none => (st, [])
  | some _ =>
    let volume := calculate_lot_size m.volume cfg env.balance
      (env.symInfoPercent symbol) (env.symInfoRound symbol)
    let req : SendRequest :=
      { symbol := symbol, order_type := m.order_type, volume := volume, price := m.price,
        sl := m.sl, tp := m.tp, comment := "Copy:" ++ toString m.ticket, magic := cfg.magic_number }
    match env.sendResult req with
    | some follower_ticket =>
      let followers := (alookup m.ticket st.follower_orders).getD []
      ({ st with follower_orders :=
          dictInsert m.ticket (dictInsert cfg.login follower_ticket followers) st.follower_orders },
        [Action.create cfg.login m.ticket req])
    | none => (st, [Action.create cfg.login m.ticket req])

/-- The unlinked tail of `_process_master_order`: the manual-close guard
(`[SKIP]`), then `_copy_new_order`. -/
def processUnlinked (st : CopierState) (m : OrderInfo) (cfg : AccountConfig) (env : FollowerEnv) :
    CopierState × List Action :=
  match alookup m.ticket st.manually_closed with
  | some logins =>
    if elemKey cfg.login logins then (st, [])
    else copy_new_order st m cfg env
  | none => copy_new_order st m cfg env

/-- `_process_master_order`: dispatch one master order for one follower.
`live` is the follower's magic-filtered live order dict built at the start of
`sync_orders_to_follower`. -/
def process_master_order (st : CopierState) (m : OrderInfo) (cfg : AccountConfig)
    (env : FollowerEnv) (live : List (Nat × FollowerOrder)) : CopierState × List Action :=
  let login := cfg.login
  let t := m.ticket
  match alookup t st.follower_orders with
  | some followers =>
    match alookup login followers with
    | some follower_ticket =>
      match alookup follower_ticket live with
      | some fOrder =>
        let acts := if has_master_order_changed st.last_master_state m
                    then modificationActions login m fOrder else []
        let statusRow := dictInsert login "synced" ((alookup t st.order_sync_status).getD [])
        ({ st with order_sync_status := dictInsert t statusRow st.order_sync_status }, acts)
      | none =>
        let mc := (alookup t st.manually_closed).getD []
        let mc1 := if elemKey login mc then mc else mc ++ [login]
        let followers1 := dictErase login followers
        let status1 :=
          match alookup t st.order_sync_status with
          | some row => dictInsert t (dictErase login row) st.order_sync_status
          | none => st.order_sync_status
        if followers1.isEmpty then
          ({ st with manually_closed := dictInsert t mc1 st.manually_closed,
                     follower_orders := dictErase t st.follower_orders,
                     order_sync_status := dictErase t status1 }, [])
        else
          ({ st with manually_closed := dictInsert t mc1 st.manually_closed,
                     follower_orders := dictInsert t followers1 st.follower_orders,
                     order_sync_status := status1 }, [])
    | none => processUnlinked st m cfg env
  | none => processUnlinked st m cfg env

/-- One entry of the `orders_to_close` work list in
`_cleanup_orphaned_orders`: follower ticket, its live record, and the master
ticket it was traced to. -/
structure CloseItem where
  ticket : Nat
  order : FollowerOrder
  masterTicket : Nat
deriving DecidableEq

/-- Orphan signal (a): a live follower order carrying the follower's magic
whose comment decodes to a master ticket absent from the snapshot. -/
def ordersToCloseByComment (live : List (Nat × FollowerOrder)) (magic : Nat)
    (masterTickets : List Nat) : List CloseItem :=
  live.filterMap (fun p =>
    if p.2.magic ≠ magic then none
    else
      match parseCopyComment p.2.comment with
      | some mt =>
        if elemKey mt masterTickets then none
        else some { ticket := p.1, order := p.2, masterTicket := mt }
      | none => none)

/-- Orphan signal (b): a tracked link whose master ticket is absent from the
snapshot and whose follower ticket is still live. -/
def ordersToCloseByTracking (st : CopierState) (login : Nat)
    (live : List (Nat × FollowerOrder)) (masterTickets : List Nat) : List CloseItem :=
  st.follower_orders.filterMap (fun p =>
    if elemKey p.1 masterTickets then none
    else
      match alookup login p.2 with
      | some ft =>
        match alookup ft live with
        | some o => some { ticket := ft, order := o, masterTicket := p.1 }
        | none => none
      | none => none)

/-- Which collaborator call the cleanup loop issues for an item: `close` for
a position type (buy/sell market), `cancel` for a pending order type.  The
source's `hasattr(order, 'type')` fallback (lines 851-857) is unreachable
here because every terminal order/position record carries a `type` field. -/
def cleanupAction (login : Nat) (item : CloseItem) : Action :=
  if item.order.type = 0 ∨ item.order.type = 1 then Action.close login item.ticket
  else Action.cancel login item.ticket

/-- Whether the close/cancel call for an item succeeds in the environment. -/
def cleanupSuccess (env : FollowerEnv) (item : CloseItem) : Bool :=
  if item.order.type = 0 ∨ item.order.type = 1 then env.closeResult item.ticket
  else env.cancelResult item.ticket

/-- The state mutation the cleanup loop performs after one item: on success,
drop this follower's login from the master ticket's link row and drop the
whole row when it becomes empty.  No other table is touched. -/
def cleanupStep (login : Nat) (env : FollowerEnv) (st : CopierState) (item : CloseItem) :
    CopierState :=
  if cleanupSuccess env item then
    match alookup item.masterTicket st.follower_orders with
    | some followers =>
      let followers1 := dictErase login followers
      if followers1.isEmpty then
        { st with follower_orders := dictErase item.masterTicket st.follower_orders }
      else
        { st with follower_orders := dictInsert item.masterTicket followers1 st.follower_orders }
    | none => st
  else st

/-- The execution loop over `orders_to_close`. -/
def cleanupExec (login : Nat) (env : FollowerEnv) :
    CopierState → List CloseItem → CopierState × List Action
  | st, [] => (st, [])
  | st, item :: rest =>
    let st1 := cleanupStep login env st item
    let (st2, acts) := cleanupExec login env st1 rest
    (st2, cleanupAction login item :: acts)

/-- `_cleanup_orphaned_orders`: collect both orphan signals into one list,
then close/cancel each entry. -/
def cleanup_orphaned_orders (st : CopierState) (master_orders : List OrderInfo)
    (live : List (Nat × FollowerOrder)) (cfg : AccountConfig) (env : FollowerEnv) :
    CopierState × List Action :=
  let masterTickets := master_orders.map (fun o => o.ticket)
  let items := ordersToCloseByComment live cfg.magic_number masterTickets
      ++ ordersToCloseByTracking st cfg.login live masterTickets
  cleanupExec cfg.login env st items

/-- Add one live record to the follower dict if it carries our magic. -/
def insertTracked (magic : Nat) (d : List (Nat × FollowerOrder)) (o : FollowerOrder) :
    List (Nat × FollowerOrder) :=
  if o.magic = magic then dictInsert o.ticket o d else d

/-- The magic-filtered `follower_orders` local dict built at the start of
`sync_orders_to_follower` from pending orders, then positions. -/
def buildLiveOrders (env : FollowerEnv) (magic : Nat) : List (Nat × FollowerOrder) :=
  env.positions.foldl (insertTracked magic) (env.pendingOrders.foldl (insertTracked magic) [])

/-- The `for master_order in master_orders` loop of
`sync_orders_to_follower`. -/
def processAll (cfg : AccountConfig) (env : FollowerEnv) (live : List (Nat × FollowerOrder)) :
    CopierState → List OrderInfo → CopierState × List Action
  | st, [] => (st, [])
  | st, m :: rest =>
    let r1 := process_master_order st m cfg env live
    let r2 := processAll cfg env live r1.1 rest
    (r2.1, r1.2 ++ r2.2)

/-- `sync_orders_to_follower`: connect (abandoning the follower's pass on
failure), build the magic-filtered live dict, process every master order,
then run orphan cleanup. -/
def sync_orders_to_follower (st : CopierState) (cfg : AccountConfig)
    (master_orders : List OrderInfo) (env : FollowerEnv) : CopierState × List Action :=
  if env.connectOk then
    let live := buildLiveOrders env cfg.magic_number
    let r1 := processAll cfg env live st master_orders
    let r2 := cleanup_orphaned_orders r1.1 master_orders live cfg env
    (r2.1, r1.2 ++ r2.2)
  else (st, [])

/-- The `has_changes`/`summary` record of `_detect_master_changes`. -/
structure ChangeResult where
  has_changes : Bool
  summary : List String
deriving DecidableEq

/-- The keys of a dict, in order. -/
def keysOf {α : Type} (d : List (Nat × α)) : List Nat := d.map (fun p => p.1)

/-- `current_tickets - last_tickets` in `_detect_master_changes`. -/
def newTickets (last current : List (Nat × OrderInfo)) : List Nat :=
  (keysOf current).filter (fun t => !(elemKey t (keysOf last)))

/-- `last_tickets - current_tickets` in `_detect_master_changes`. -/
def removedTickets (last current : List (Nat × OrderInfo)) : List Nat :=
  (keysOf last).filter (fun t => !(elemKey t (keysOf current)))

/-- `current_tickets & last_tickets` in `_detect_master_changes`. -/
def commonTickets (last current : List (Nat × OrderInfo)) : List Nat :=
  (keysOf current).filter (fun t => elemKey t (keysOf last))

/-- The `modified_count` accumulated over common tickets. -/
def modifiedCount (last current : List (Nat × OrderInfo)) : Nat :=
  ((commonTickets last current).filter (fun t =>
    match alookup t current with
    | some o => has_master_order_changed last o
    | none => false)).length

/-- The non-raising body of `_detect_master_changes`. -/
def detectBody (last current : List (Nat × OrderInfo)) : ChangeResult :=
  let nw := newTickets last current
  let rm := removedTickets last current
  let mc := modifiedCount last current
  let summary0 :=
    (if nw.isEmpty then [] else [toString nw.length ++ " new orders"])
      ++ (if rm.isEmpty then [] else [toString rm.length ++ " removed orders"])
      ++ (if mc = 0 then [] else [toString mc ++ " modified orders"])
  { has_changes := !nw.isEmpty || !rm.isEmpty || decide (0 < mc),
    summary := if summary0.isEmpty then ["no changes"] else summary0 }

/-- The `except` wrapper of `_detect_master_changes` (lines 975-978): an
internal error yields `has_changes = true`. -/
def detectOutcome : Except String ChangeResult → ChangeResult
  | Except.ok c => c
  | Except.error _ => { has_changes := true, summary := ["error - assuming changes"] }

/-- The `except` wrapper of `_has_master_order_changed` (lines 702-704): an
internal error yields `true` (assume changed, to be safe). -/
def hasChangedOutcome : Except String Bool → Bool
  | Except.ok b => b
  | Except.error _ => true

/-- `_detect_master_changes` on a successfully evaluated body. -/
def detect_master_changes (st : CopierState) (current : List (Nat × OrderInfo)) : ChangeResult :=
  detectOutcome (Except.ok (detectBody st.last_master_state current))

/-- `get_master_orders`: the retrieved snapshot, or `[]` when the master
connection fails or retrieval raises (lines 514-516 and 561-563). -/
def get_master_orders (fetch : Option (List OrderInfo)) : List OrderInfo :=
  match fetch with
  | none => []
  | some orders => orders

/-- `current_master_state`: the ticket-keyed dict of the snapshot list. -/
def buildMasterState (orders : List OrderInfo) : List (Nat × OrderInfo) :=
  orders.foldl (fun d o => dictInsert o.ticket o d) []

/-- The per-follower loop of `run_copy_cycle` (both its branches iterate the
enabled followers; the empty-snapshot branch passes the empty list, which is
`master_orders` itself there). -/
def runFollowers (master_orders : List OrderInfo) (env : CycleEnv) :
    CopierState → List AccountConfig → CopierState × List Action
  | st, [] => (st, [])
  | st, cfg :: rest =>
    if cfg.enabled then
      let r1 := sync_orders_to_follower st cfg master_orders (env.followerEnv cfg.login)
      let r2 := runFollowers master_orders env r1.1 rest
      (r2.1, r1.2 ++ r2.2)
    else runFollowers master_orders env st rest

/-- `run_copy_cycle`: fetch the master snapshot, gate on the change detector
(skipping all follower work when nothing changed), otherwise sync every
enabled follower; in either case store the snapshot as the new
`last_master_state`. -/
def run_copy_cycle (followers : List AccountConfig) (st : CopierState) (env : CycleEnv) :
    CopierState × List Action :=
  let master_orders := get_master_orders env.masterFetch
  let current := buildMasterState master_orders
  let changes := detect_master_changes st current
  if changes.has_changes then
    let r := runFollowers master_orders env st followers
    ({ r.1 with last_master_state := current }, r.2)
  else
    ({ st with last_master_state := current }, [])

/-- A run of consecutive polling cycles, concatenating the action traces. -/
def runCycles (followers : List AccountConfig) :
    CopierState → List CycleEnv → CopierState × List Action
  | st, [] => (st, [])
  | st, e :: rest =>
    let r1 := run_copy_cycle followers st e
    let r2 := runCycles followers r1.1 rest
    (r2.1, r1.2 ++ r2.2)

/-- Whether `(t, login)` is recorded in the manual-close table. -/
def manuallyClosedPair (st : CopierState) (t login : Nat) : Bool :=
  match alookup t st.manually_closed with
  | some logins => elemKey login logins
  | none => false

/-- The follower ticket linked to `(t, login)`, if any. -/
def linkEntry (st : CopierState) (t login : Nat) : Option Nat :=
  match alookup t st.follower_orders with
  | some followers => alookup login followers
  | none => none

/-- Whether `(t, login)` is recorded in a manual-close table. -/
def pairInMC (mcT : List (Nat × List Nat)) (t l : Nat) : Bool :=
  match alookup t mcT with
  | some logins => elemKey l logins
  | none => false

/-- Whether the link table maps `(t, l)` to the follower ticket `ft`. -/
def linkPresent (st : CopierState) (t l ft : Nat) : Bool :=
  match alookup t st.follower_orders with
  | some fs => decide (alookup l fs = some ft)
  | none => false

/-- Whether the link table has no entry for `(t, l)`. -/
def linkAbsent (st : CopierState) (t l : Nat) : Bool :=
  match alookup t st.follower_orders with
  | some fs => (alookup l fs).isNone
  | none => true

/-- Well-formedness of the link table as a Python dict of dicts: outer keys
distinct and each row's keys distinct (always true of a real dict; needed
because the model is an association list). -/
abbrev wfFO (fo : List (Nat × List (Nat × Nat))) : Prop :=
  (fo.map Prod.fst).Nodup ∧ ∀ p ∈ fo, (p.2.map Prod.fst).Nodup

/-!  Concrete scenario data used by the witnesses and counterexamples. -/

/-- A follower environment in which every terminal call fails or is empty. -/
def emptyFollowerEnv : FollowerEnv :=
  { connectOk := true, pendingOrders := [], positions := [], balance := none,
    symInfoCheck := fun _ => none, symInfoPercent := fun _ => none,
    symInfoRound := fun _ => none, sendResult := fun _ => none,
    closeResult := fun _ => true, cancelResult := fun _ => true }

/-- Scenario for the sticky-manual-close witness: master ticket 100 open,
follower 7 recorded as having manually closed its copy. -/
def c1Order : OrderInfo :=
  { ticket := 100, symbol := "EURUSD", order_type := 0, volume := 1, price := 11/10,
    sl := 0, tp := 0, comment := "", magic := 0, time_setup := 0, state := 4 }

def c1Cfg : AccountConfig :=
  { login := 7, lot_calculation := LotCalculationType.multiplier, lot_value := 1/2,
    max_lot := 5, min_lot := 1/100, symbol_mapping := [], magic_number := 77, enabled := true }

def c1State : CopierState :=
  { follower_orders := [], last_master_state := [(100, c1Order)],
    order_sync_status := [], manually_closed := [(100, [7])] }

def c1Env : CycleEnv :=
  { masterFetch := some [c1Order],
    followerEnv := fun _ =>
      { connectOk := true, pendingOrders := [], positions := [], balance := none,
        symInfoCheck := fun _ =>
          some { trade_contract_size := 100000, trade_tick_value := 1, volume_step := 1/100 },
        symInfoPercent := fun _ => none, symInfoRound := fun _ => none,
        sendResult := fun _ => some 900, closeResult := fun _ => true,
        cancelResult := fun _ => true } }

def c1Req : SendRequest :=
  { symbol := "EURUSD", order_type := 0, volume := 1/2, price := 11/10, sl := 0, tp := 0,
    comment := "Copy:100", magic := 77 }

/-- Environment for the idempotence witness: an empty master account. -/
def c2Env : CycleEnv := { masterFetch := some [], followerEnv := fun _ => emptyFollowerEnv }

/-- Config for the sizing counterexample: multiplier 1, bounds `[0.01, 5.0]`. -/
def c5Cfg : AccountConfig :=
  { login := 1, lot_calculation := LotCalculationType.multiplier, lot_value := 1,
    max_lot := 5, min_lot := 1/100, symbol_mapping := [], magic_number := 1, enabled := true }

/-- Symbol metadata with `volume_step = 0.3`, which does not divide the
bound `5.0`. -/
def c5Si : SymbolInfo := { trade_contract_size := 100000, trade_tick_value := 1, volume_step := 3/10 }

/-- Config for the sizing witness: multiplier 1/2, step-aligned bounds. -/
def c5WitCfg : AccountConfig :=
  { login := 1, lot_calculation := LotCalculationType.multiplier, lot_value := 1/2,
    max_lot := 5, min_lot := 1/100, symbol_mapping := [], magic_number := 1, enabled := true }

/-- Standard `volume_step = 0.01` metadata. -/
def c5WitSi : SymbolInfo :=
  { trade_contract_size := 100000, trade_tick_value := 1, volume_step := 1/100 }

/-- Modification scenario: master order 1 whose stop-loss moved from 0 to
`2e-5` between cycles, linked to follower order 2 whose live stop-loss is
`1e-5` — the remaining delta is exactly the tolerance. -/
def c6Master : OrderInfo :=
  { ticket := 1, symbol := "EURUSD", order_type := 2, volume := 1, price := 1,
    sl := 2/100000, tp := 0, comment := "", magic := 0, time_setup := 0, state := 1 }

def c6Last : OrderInfo :=
  { ticket := 1, symbol := "EURUSD", order_type := 2, volume := 1, price := 1,
    sl := 0, tp := 0, comment := "", magic := 0, time_setup := 0, state := 1 }

def c6F : FollowerOrder :=
  { ticket := 2, symbol := "EURUSD", type := 2, magic := 77, sl := 1/100000, tp := 0,
    price_open := some 1, comment := "Copy:1" }

/-- Same follower order but with stop-loss 0: the delta `2e-5` is strictly
above tolerance, so a modify is issued. -/
def c6F2 : FollowerOrder :=
  { ticket := 2, symbol := "EURUSD", type := 2, magic := 77, sl := 0, tp := 0,
    price_open := some 1, comment := "Copy:1" }

def c6Cfg : AccountConfig :=
  { login := 7, lot_calculation := LotCalculationType.fixed, lot_value := 1/10,
    max_lot := 5, min_lot := 1/100, symbol_mapping := [], magic_number := 77, enabled := true }

def c6State : CopierState :=
  { follower_orders := [(1, [(7, 2)])], last_master_state := [(1, c6Last)],
    order_sync_status := [], manually_closed := [] }

def c6EnvF : FollowerEnv :=
  { connectOk := true, pendingOrders := [c6F], positions := [], balance := none,
    symInfoCheck := fun _ => none, symInfoPercent := fun _ => none,
    symInfoRound := fun _ => none, sendResult := fun _ => none,
    closeResult := fun _ => true, cancelResult := fun _ => true }

/-- Sizing-failure scenario: a master order whose symbol has no metadata on
the follower side. -/
def c7Master : OrderInfo :=
  { ticket := 5, symbol := "XAUUSD", order_type := 0, volume := 2, price := 2000,
    sl := 0, tp := 0, comment := "", magic := 0, time_setup := 0, state := 4 }

def c7Cfg : AccountConfig :=
  { login := 7, lot_calculation := LotCalculationType.percent_balance, lot_value := 10,
    max_lot := 100, min_lot := 1/100, symbol_mapping := [], magic_number := 7, enabled := true }

/-- Environment where every symbol lookup fails. -/
def c7EnvNone : FollowerEnv :=
  { connectOk := true, pendingOrders := [], positions := [], balance := some 1000,
    symInfoCheck := fun _ => none, symInfoPercent := fun _ => none,
    symInfoRound := fun _ => none, sendResult := fun _ => some 901,
    closeResult := fun _ => true, cancelResult := fun _ => true }

def c7Si : SymbolInfo := { trade_contract_size := 100, trade_tick_value := 1, volume_step := 1/100 }

/-- Environment where the availability check succeeds but the metadata
lookup inside the sizing calculator fails (a transient terminal failure). -/
def c7EnvPartial : FollowerEnv :=
  { connectOk := true, pendingOrders := [], positions := [], balance := some 1000,
    symInfoCheck := fun _ => some c7Si, symInfoPercent := fun _ => none,
    symInfoRound := fun _ => none, sendResult := fun _ => some 901,
    closeResult := fun _ => true, cancelResult := fun _ => true }

/-- Orphan-cleanup scenario (global purge): master ticket 100 disappeared;
follower 7 holds live position 500 (comment `Copy:100`, magic 42); follower 8
is on record as having manually closed its copy of 100; the status table
still says follower 7 is synced. -/
def c3Last : OrderInfo :=
  { ticket := 100, symbol := "EURUSD", order_type := 0, volume := 1, price := 1,
    sl := 0, tp := 0, comment := "", magic := 0, time_setup := 0, state := 4 }

def c3F : FollowerOrder :=
  { ticket := 500, symbol := "EURUSD", type := 0, magic := 42, sl := 0, tp := 0,
    price_open := some 1, comment := "Copy:100" }

def c3Cfg : AccountConfig :=
  { login := 7, lot_calculation := LotCalculationType.fixed, lot_value := 1/10,
    max_lot := 5, min_lot := 1/100, symbol_mapping := [], magic_number := 42, enabled := true }

def c3State : CopierState :=
  { follower_orders := [(100, [(7, 500)])], last_master_state := [(100, c3Last)],
    order_sync_status := [(100, [(7, "synced")])], manually_closed := [(100, [8])] }

def c3EnvF : FollowerEnv :=
  { connectOk := true, pendingOrders := [], positions := [c3F], balance := none,
    symInfoCheck := fun _ => none, symInfoPercent := fun _ => none,
    symInfoRound := fun _ => none, sendResult := fun _ => none,
    closeResult := fun _ => true, cancelResult := fun _ => true }

def c3Env : CycleEnv := { masterFetch := some [], followerEnv := fun _ => c3EnvF }

/-- Double-execution scenario: master ticket 200 disappeared; follower 9
holds live position 600 which is both internally tracked and carries the
decodable comment `Copy:200`. -/
def c4Last : OrderInfo :=
  { ticket := 200, symbol := "EURUSD", order_type := 0, volume := 1, price := 1,
    sl := 0, tp := 0, comment := "", magic := 0, time_setup := 0, state := 4 }

def c4F : FollowerOrder :=
  { ticket := 600, symbol := "EURUSD", type := 0, magic := 42, sl := 0, tp := 0,
    price_open := some 1, comment := "Copy:200" }

def c4Cfg : AccountConfig :=
  { login := 9, lot_calculation := LotCalculationType.fixed, lot_value := 1/10,
    max_lot := 5, min_lot := 1/100, symbol_mapping := [], magic_number := 42, enabled := true }

def c4State : CopierState :=
  { follower_orders := [(200, [(9, 600)])], last_master_state := [(200, c4Last)],
    order_sync_status := [], manually_closed := [] }

def c4EnvF : FollowerEnv :=
  { connectOk := true, pendingOrders := [], positions := [c4F], balance := none,
    symInfoCheck := fun _ => none, symInfoPercent := fun _ => none,
    symInfoRound := fun _ => none, sendResult := fun _ => none,
    closeResult := fun _ => true, cancelResult := fun _ => true }

def c4Env : CycleEnv := { masterFetch := some [], followerEnv := fun _ => c4EnvF }

/-- Magic-scoping scenario: follower 3's account carries a live pending order
800 tracked for vanished master ticket 300. -/
def c9Last : OrderInfo :=
  { ticket := 300, symbol := "EURUSD", order_type := 2, volume := 1, price := 1,
    sl := 0, tp := 0, comment := "", magic := 0, time_setup := 0, state := 1 }

def c9F : FollowerOrder :=
  { ticket := 800, symbol := "EURUSD", type := 2, magic := 55, sl := 0, tp := 0,
    price_open := some 1, comment := "Copy:300" }

def c9Cfg : AccountConfig :=
  { login := 3, lot_calculation := LotCalculationType.fixed, lot_value := 1/10,
    max_lot := 5, min_lot := 1/100, symbol_mapping := [], magic_number := 55, enabled := true }

def c9State : CopierState :=
  { follower_orders := [(300, [(3, 800)])], last_master_state := [(300, c9Last)],
    order_sync_status := [], manually_closed := [] }

def c9EnvF : FollowerEnv :=
  { connectOk := true, pendingOrders := [c9F], positions := [], balance := none,
    symInfoCheck := fun _ => none, symInfoPercent := fun _ => none,
    symInfoRound := fun _ => none, sendResult := fun _ => none,
    closeResult := fun _ => true, cancelResult := fun _ => true }

/-- Master-fetch-failure scenario: the master connection fails; follower 4
holds live position 700 tracked for master ticket 400. -/
def c10Last : OrderInfo :=
  { ticket := 400, symbol := "EURUSD", order_type := 0, volume := 1, price := 1,
    sl := 0, tp := 0, comment := "", magic := 0, time_setup := 0, state := 4 }

def c10F : FollowerOrder :=
  { ticket := 700, symbol := "EURUSD", type := 0, magic := 66, sl := 0, tp := 0,
    price_open := some 1, comment := "Copy:400" }

def c10Cfg : AccountConfig :=
  { login := 4, lot_calculation := LotCalculationType.fixed, lot_value := 1/10,
    max_lot := 5, min_lot := 1/100, symbol_mapping := [], magic_number := 66, enabled := true }

def c10State : CopierState :=
  { follower_orders := [(400, [(4, 700)])], last_master_state := [(400, c10Last)],
    order_sync_status := [], manually_closed := [] }

def c10EnvF : FollowerEnv :=
  { connectOk := true, pendingOrders := [], positions := [c10F], balance := none,
    symInfoCheck := fun _ => none, symInfoPercent := fun _ => none,
    symInfoRound := fun _ => none, sendResult := fun _ => none,
    closeResult := fun _ => true, cancelResult := fun _ => true }

def c10Env : CycleEnv := { masterFetch := none, followerEnv := fun _ => c10EnvF }

/-!  Association-list (Python dict) lemmas. -/

theorem alookup_dictInsert_self {κ α : Type} [DecidableEq κ] (k : κ) (v : α)
    (d : List (κ × α)) : alookup k (dictInsert k v d) = some v := by
  induction d with
  | nil => simp [dictInsert, alookup]
  | cons p rest ih =>
    simp only [dictInsert]
    by_cases h : p.1 = k
    · simp [h, alookup]
    · have h2 : ¬ (k = p.1) := fun e => h e.symm
      simp [h, alookup, h2, ih]

theorem alookup_dictInsert_ne {κ α : Type} [DecidableEq κ] {k k2 : κ} (v : α)
    (d : List (κ × α)) (h : k ≠ k2) : alookup k (dictInsert k2 v d) = alookup k d := by
  induction d with
  | nil => simp [dictInsert, alookup, h]
  | cons p rest ih =>
    simp only [dictInsert]
    by_cases hp : p.1 = k2
    · have h2 : ¬ (k = p.1) := fun e => h (e.trans hp)
      simp [hp, alookup, h, h2]
    · by_cases hk : k = p.1
      · simp [hp, alookup, hk]
      · simp [hp, alookup, hk, ih]

theorem alookup_dictErase_ne {κ α : Type} [DecidableEq κ] {k k2 : κ}
    (d : List (κ × α)) (h : k ≠ k2) : alookup k (dictErase k2 d) = alookup k d := by
  induction d with
  | nil => simp [dictErase]
  | cons p rest ih =>
    simp only [dictErase]
    by_cases hp : p.1 = k2
    · have h2 : ¬ (k = p.1) := fun e => h (e.trans hp)
      simp [hp, alookup, h2, h]
    · by_cases hk : k = p.1
      · simp [hp, alookup, hk]
      · simp [hp, alookup, hk, ih]

theorem alookup_dictErase_isNone {κ α : Type} [DecidableEq κ] (k : κ) (d : List (κ × α))
    (ha : alookup k d = none) : alookup k (dictErase k d) = none := by
  induction d with
  | nil => simp [dictErase, alookup]
  | cons p rest ih =>
    simp only [alookup] at ha
    by_cases hk : k = p.1
    · simp [hk] at ha
    · simp only [dictErase]
      by_cases hp : p.1 = k
      · exact absurd hp.symm hk
      · simp [hk] at ha
        simp [hp, alookup, hk, ih ha]

theorem alookup_mem {κ α : Type} [DecidableEq κ] {k : κ} {v : α} {d : List (κ × α)}
    (h : alookup k d = some v) : (k, v) ∈ d := by
  induction d with
  | nil => simp [alookup] at h
  | cons p rest ih =>
    simp only [alookup] at h
    by_cases hk : k = p.1
    · simp [hk] at h
      have hp2 : p = (k, v) := by
        cases p with
        | mk a b =>
          simp only [Prod.mk.injEq]
          simp only at hk h
          exact ⟨hk.symm, h⟩
      rw [hp2]
      exact List.mem_cons_self _ _
    · simp [hk] at h
      exact List.mem_cons_of_mem _ (ih h)

theorem mem_dictInsert {κ α : Type} [DecidableEq κ] {x : κ × α} {k : κ} {v : α}
    {d : List (κ × α)} (h : x ∈ dictInsert k v d) : x = (k, v) ∨ x ∈ d := by
  induction d with
  | nil => simp [dictInsert] at h; simp [h]
  | cons p rest ih =>
    simp only [dictInsert] at h
    by_cases hp : p.1 = k
    · simp [hp] at h
      rcases h with h | h
      · exact Or.inl h
      · exact Or.inr (List.mem_cons_of_mem _ h)
    · simp [hp] at h
      rcases h with h | h
      · exact Or.inr (by simp [h])
      · rcases ih h with h2 | h2
        · exact Or.inl h2
        · exact Or.inr (List.mem_cons_of_mem _ h2)

theorem elemKey_iff {κ : Type} [DecidableEq κ] (x : κ) (l : List κ) :
    elemKey x l = true ↔ x ∈ l := by
  induction l with
  | nil => simp [elemKey]
  | cons y rest ih =>
    simp only [elemKey]
    by_cases h : x = y
    · simp [h]
    · simp [h, ih]

theorem elemKey_append_left {κ : Type} [DecidableEq κ] {x : κ} {l1 : List κ} (l2 : List κ)
    (h : elemKey x l1 = true) : elemKey x (l1 ++ l2) = true := by
  rw [elemKey_iff] at h ⊢
  exact List.mem_append_left l2 h

theorem elemKey_keysOf {α : Type} (k : Nat) (d : List (Nat × α)) :
    elemKey k (keysOf d) = (alookup k d).isSome := by
  induction d with
  | nil => simp [keysOf, elemKey, alookup]
  | cons p rest ih =>
    simp only [keysOf, List.map_cons, elemKey, alookup]
    by_cases h : k = p.1
    · simp [h]
    · simpa [h] using ih

theorem isEmpty_eq_false_of_alookup {κ α : Type} [DecidableEq κ] {k : κ} {v : α}
    {d : List (κ × α)} (h : alookup k d = some v) : d.isEmpty = false := by
  cases d with
  | nil => simp [alookup] at h
  | cons p rest => rfl

/-!  The engine never touches `last_master_state` inside a cycle (it is only
replaced wholesale at the end of `run_copy_cycle`). -/

theorem copy_new_order_last (st : CopierState) (m : OrderInfo) (cfg : AccountConfig)
    (env : FollowerEnv) : (copy_new_order st m cfg env).1.last_master_state = st.last_master_state := by
  unfold copy_new_order
  try dsimp only
  repeat' split
  all_goals rfl

theorem processUnlinked_last (st : CopierState) (m : OrderInfo) (cfg : AccountConfig)
    (env : FollowerEnv) :
    (processUnlinked st m cfg env).1.last_master_state = st.last_master_state := by
  unfold processUnlinked
  try dsimp only
  repeat' split
  all_goals first
    | rfl
    | exact copy_new_order_last st m cfg env

theorem process_master_order_last (st : CopierState) (m : OrderInfo) (cfg : AccountConfig)
    (env : FollowerEnv) (live : List (Nat × FollowerOrder)) :
    (process_master_order st m cfg env live).1.last_master_state = st.last_master_state := by
  unfold process_master_order
  try dsimp only
  repeat' split
  all_goals first
    | rfl
    | exact processUnlinked_last st m cfg env

theorem processAll_last (cfg : AccountConfig) (env : FollowerEnv)
    (live : List (Nat × FollowerOrder)) (st : CopierState) (ms : List OrderInfo) :
    (processAll cfg env live st ms).1.last_master_state = st.last_master_state := by
  induction ms generalizing st with
  | nil => rfl
  | cons m rest ih =>
    simp only [processAll]
    rw [ih]
    exact process_master_order_last st m cfg env live

theorem cleanupStep_last (login : Nat) (env : FollowerEnv) (st : CopierState)
    (item : CloseItem) : (cleanupStep login env st item).last_master_state = st.last_master_state := by
  unfold cleanupStep
  try dsimp only
  repeat' split
  all_goals rfl

theorem cleanupExec_last (login : Nat) (env : FollowerEnv) (st : CopierState)
    (items : List CloseItem) :
    (cleanupExec login env st items).1.last_master_state = st.last_master_state := by
  induction items generalizing st with
  | nil => rfl
  | cons item rest ih =>
    simp only [cleanupExec]
    rw [ih]
    exact cleanupStep_last login env st item

theorem sync_orders_to_follower_last (st : CopierState) (cfg : AccountConfig)
    (ms : List OrderInfo) (env : FollowerEnv) :
    (sync_orders_to_follower st cfg ms env).1.last_master_state = st.last_master_state := by
  unfold sync_orders_to_follower
  try dsimp only
  split
  · simp only [cleanup_orphaned_orders]
    rw [cleanupExec_last]
    exact processAll_last _ _ _ _ _
  · rfl

theorem runFollowers_last (ms : List OrderInfo) (env : CycleEnv) (st : CopierState)
    (followers : List AccountConfig) :
    (runFollowers ms env st followers).1.last_master_state = st.last_master_state := by
  induction followers generalizing st with
  | nil => rfl
  | cons cfg rest ih =>
    simp only [runFollowers]
    split
    · rw [ih]
      exact sync_orders_to_follower_last st cfg ms _
    · exact ih st

theorem run_copy_cycle_last (followers : List AccountConfig) (st : CopierState)
    (env : CycleEnv) :
    (run_copy_cycle followers st env).1.last_master_state
      = buildMasterState (get_master_orders env.masterFetch) := by
  unfold run_copy_cycle
  try dsimp only
  split
  all_goals rfl

/-!  The manual-close table only ever grows: the cleanup pass never touches
it, a successful copy never touches it, and the manual-close branch of
`_process_master_order` only adds a login to a row. -/

theorem copy_new_order_mc (st : CopierState) (m : OrderInfo) (cfg : AccountConfig)
    (env : FollowerEnv) : (copy_new_order st m cfg env).1.manually_closed = st.manually_closed := by
  unfold copy_new_order
  try dsimp only
  repeat' split
  all_goals rfl

theorem processUnlinked_mc (st : CopierState) (m : OrderInfo) (cfg : AccountConfig)
    (env : FollowerEnv) :
    (processUnlinked st m cfg env).1.manually_closed = st.manually_closed := by
  unfold processUnlinked
  try dsimp only
  repeat' split
  all_goals first
    | rfl
    | exact copy_new_order_mc st m cfg env

theorem pairInMC_insert (mcT : List (Nat × List Nat)) (t l k : Nat) (row : List Nat)
    (h : pairInMC mcT t l = true)
    (hrow : elemKey l ((alookup k mcT).getD []) = true → elemKey l row = true) :
    pairInMC (dictInsert k row mcT) t l = true := by
  unfold pairInMC at h ⊢
  by_cases ht : t = k
  · subst ht
    rw [alookup_dictInsert_self]
    cases he : alookup t mcT with
    | none => rw [he] at h; simp at h
    | some ls =>
      rw [he] at h
      exact hrow (by simpa [he] using h)
  · rw [alookup_dictInsert_ne _ _ ht]
    exact h

theorem process_master_order_mc (st : CopierState) (m : OrderInfo) (cfg : AccountConfig)
    (env : FollowerEnv) (live : List (Nat × FollowerOrder)) (t l : Nat)
    (h : pairInMC st.manually_closed t l = true) :
    pairInMC (process_master_order st m cfg env live).1.manually_closed t l = true := by
  unfold process_master_order
  try dsimp only
  repeat' split
  all_goals first
    | exact h
    | (rw [processUnlinked_mc]; exact h)
    | exact pairInMC_insert st.manually_closed t l m.ticket _ h (fun hh => hh)
    | exact pairInMC_insert st.manually_closed t l m.ticket _ h (fun hh => elemKey_append_left _ hh)

theorem processAll_mc (cfg : AccountConfig) (env : FollowerEnv)
    (live : List (Nat × FollowerOrder)) (st : CopierState) (ms : List OrderInfo) (t l : Nat)
    (h : pairInMC st.manually_closed t l = true) :
    pairInMC (processAll cfg env live st ms).1.manually_closed t l = true := by
  induction ms generalizing st with
  | nil => exact h
  | cons m rest ih =>
    simp only [processAll]
    exact ih _ (process_master_order_mc st m cfg env live t l h)

theorem cleanupStep_mc (login : Nat) (env : FollowerEnv) (st : CopierState)
    (item : CloseItem) : (cleanupStep login env st item).manually_closed = st.manually_closed := by
  unfold cleanupStep
  try dsimp only
  repeat' split
  all_goals rfl

theorem cleanupExec_mc (login : Nat) (env : FollowerEnv) (st : CopierState)
    (items : List CloseItem) :
    (cleanupExec login env st items).1.manually_closed = st.manually_closed := by
  induction items generalizing st with
  | nil => rfl
  | cons item rest ih =>
    simp only [cleanupExec]
    rw [ih]
    exact cleanupStep_mc login env st item

theorem sync_orders_to_follower_mc (st : CopierState) (cfg : AccountConfig)
    (ms : List OrderInfo) (env : FollowerEnv) (t l : Nat)
    (h : pairInMC st.manually_closed t l = true) :
    pairInMC (sync_orders_to_follower st cfg ms env).1.manually_closed t l = true := by
  unfold sync_orders_to_follower
  try dsimp only
  split
  · simp only [cleanup_orphaned_orders]
    rw [cleanupExec_mc]
    exact processAll_mc cfg env _ st ms t l h
  · exact h

theorem runFollowers_mc (ms : List OrderInfo) (env : CycleEnv) (st : CopierState)
    (followers : List AccountConfig) (t l : Nat)
    (h : pairInMC st.manually_closed t l = true) :
    pairInMC (runFollowers ms env st followers).1.manually_closed t l = true := by
  induction followers generalizing st with
  | nil => exact h
  | cons cfg rest ih =>
    simp only [runFollowers]
    split
    · exact ih _ (sync_orders_to_follower_mc st cfg ms _ t l h)
    · exact ih st h

theorem run_copy_cycle_mc (followers : List AccountConfig) (st : CopierState)
    (env : CycleEnv) (t l : Nat) (h : pairInMC st.manually_closed t l = true) :
    pairInMC (run_copy_cycle followers st env).1.manually_closed t l = true := by
  unfold run_copy_cycle
  try dsimp only
  split
  · exact runFollowers_mc _ env st followers t l h
  · exact h

/-!  No create action is ever issued for a pair recorded in the manual-close
table: the guard at the head of the unlinked path of `_process_master_order`
suppresses the re-copy, and the cleanup pass only issues closes/cancels. -/

theorem copy_new_order_trace_shape (st : CopierState) (m : OrderInfo) (cfg : AccountConfig)
    (env : FollowerEnv) :
    ∀ a ∈ (copy_new_order st m cfg env).2, ∃ req2, a = Action.create cfg.login m.ticket req2 := by
  unfold copy_new_order
  try dsimp only
  repeat' split
  · intro a ha
    simp at ha
  · intro a ha
    simp at ha
    exact ⟨_, ha⟩
  · intro a ha
    simp at ha
    exact ⟨_, ha⟩

theorem processUnlinked_trace_shape (st : CopierState) (m : OrderInfo) (cfg : AccountConfig)
    (env : FollowerEnv) :
    ∀ a ∈ (processUnlinked st m cfg env).2, ∃ req2, a = Action.create cfg.login m.ticket req2 := by
  unfold processUnlinked
  try dsimp only
  repeat' split
  · intro a ha
    simp at ha
  · exact copy_new_order_trace_shape st m cfg env
  · exact copy_new_order_trace_shape st m cfg env

theorem processUnlinked_no_create (st : CopierState) (m : OrderInfo) (cfg : AccountConfig)
    (env : FollowerEnv) (t l : Nat) (req : SendRequest)
    (h : pairInMC st.manually_closed t l = true) :
    Action.create l t req ∉ (processUnlinked st m cfg env).2 := by
  intro hmem
  by_cases hts : t = m.ticket ∧ l = cfg.login
  · obtain ⟨ht, hl⟩ := hts
    subst ht
    subst hl
    unfold pairInMC at h
    unfold processUnlinked at hmem
    cases he : alookup m.ticket st.manually_closed with
    | none =>
      rw [he] at h
      simp at h
    | some logins =>
      simp only [he] at h hmem
      simp [h] at hmem
  · obtain ⟨req2, heq⟩ := processUnlinked_trace_shape st m cfg env _ hmem
    rw [Action.create.injEq] at heq
    exact hts ⟨heq.2.1, heq.1⟩

theorem create_not_in_modificationActions (login : Nat) (m : OrderInfo) (f : FollowerOrder)
    (l t : Nat) (req : SendRequest) : Action.create l t req ∉ modificationActions login m f := by
  unfold modificationActions
  split <;> simp

theorem process_master_order_no_create (st : CopierState) (m : OrderInfo) (cfg : AccountConfig)
    (env : FollowerEnv) (live : List (Nat × FollowerOrder)) (t l : Nat) (req : SendRequest)
    (h : pairInMC st.manually_closed t l = true) :
    Action.create l t req ∉ (process_master_order st m cfg env live).2 := by
  unfold process_master_order
  try dsimp only
  repeat' split
  all_goals first
    | exact processUnlinked_no_create st m cfg env t l req h
    | (intro hmem; exact create_not_in_modificationActions cfg.login m _ l t req hmem)
    | (intro hmem; exact absurd hmem (List.not_mem_nil _))

theorem processAll_no_create (cfg : AccountConfig) (env : FollowerEnv)
    (live : List (Nat × FollowerOrder)) (st : CopierState) (ms : List OrderInfo)
    (t l : Nat) (req : SendRequest) (h : pairInMC st.manually_closed t l = true) :
    Action.create l t req ∉ (processAll cfg env live st ms).2 := by
  induction ms generalizing st with
  | nil => simp [processAll]
  | cons m rest ih =>
    simp only [processAll]
    intro hmem
    rw [List.mem_append] at hmem
    rcases hmem with hmem | hmem
    · exact process_master_order_no_create st m cfg env live t l req h hmem
    · exact ih _ (process_master_order_mc st m cfg env live t l h) hmem

theorem cleanupAction_ne_create (login : Nat) (item : CloseItem) (l t : Nat)
    (req : SendRequest) : cleanupAction login item ≠ Action.create l t req := by
  unfold cleanupAction
  split <;> simp

theorem cleanupExec_trace (login : Nat) (env : FollowerEnv) (st : CopierState)
    (items : List CloseItem) :
    (cleanupExec login env st items).2 = items.map (cleanupAction login) := by
  induction items generalizing st with
  | nil => rfl
  | cons item rest ih =>
    simp only [cleanupExec, List.map_cons]
    rw [ih]

theorem cleanup_no_create (st : CopierState) (ms : List OrderInfo)
    (live : List (Nat × FollowerOrder)) (cfg : AccountConfig) (env : FollowerEnv)
    (l t : Nat) (req : SendRequest) :
    Action.create l t req ∉ (cleanup_orphaned_orders st ms live cfg env).2 := by
  unfold cleanup_orphaned_orders
  try dsimp only
  rw [cleanupExec_trace]
  intro hmem
  rw [List.mem_map] at hmem
  obtain ⟨item, _, heq⟩ := hmem
  exact cleanupAction_ne_create cfg.login item l t req heq

theorem sync_no_create (st : CopierState) (cfg : AccountConfig) (ms : List OrderInfo)
    (env : FollowerEnv) (t l : Nat) (req : SendRequest)
    (h : pairInMC st.manually_closed t l = true) :
    Action.create l t req ∉ (sync_orders_to_follower st cfg ms env).2 := by
  unfold sync_orders_to_follower
  try dsimp only
  split
  · intro hmem
    rw [List.mem_append] at hmem
    rcases hmem with hmem | hmem
    · exact processAll_no_create cfg env _ st ms t l req h hmem
    · exact cleanup_no_create _ ms _ cfg env l t req hmem
  · simp

theorem runFollowers_no_create (ms : List OrderInfo) (env : CycleEnv) (st : CopierState)
    (followers : List AccountConfig) (t l : Nat) (req : SendRequest)
    (h : pairInMC st.manually_closed t l = true) :
    Action.create l t req ∉ (runFollowers ms env st followers).2 := by
  induction followers generalizing st with
  | nil => simp [runFollowers]
  | cons cfg rest ih =>
    simp only [runFollowers]
    split
    · intro hmem
      rw [List.mem_append] at hmem
      rcases hmem with hmem | hmem
      · exact sync_no_create st cfg ms _ t l req h hmem
      · exact ih _ (sync_orders_to_follower_mc st cfg ms _ t l h) hmem
    · exact ih st h

theorem run_copy_cycle_no_create (followers : List AccountConfig) (st : CopierState)
    (env : CycleEnv) (t l : Nat) (req : SendRequest)
    (h : pairInMC st.manually_closed t l = true) :
    Action.create l t req ∉ (run_copy_cycle followers st env).2 := by
  unfold run_copy_cycle
  try dsimp only
  split
  · exact runFollowers_no_create _ env st followers t l req h
  · simp

/-!  Change-detector lemmas. -/

theorem mem_keysOf_isSome {α : Type} {t : Nat} {d : List (Nat × α)} (h : t ∈ keysOf d) :
    (alookup t d).isSome = true := by
  rw [← elemKey_keysOf, elemKey_iff]
  exact h

theorem has_master_order_changed_false (last : List (Nat × OrderInfo)) (o lastO : OrderInfo)
    (hl : alookup o.ticket last = some lastO)
    (hprice : pyAbs (o.price - lastO.price) ≤ tol) (hsl : pyAbs (o.sl - lastO.sl) ≤ tol)
    (htp : pyAbs (o.tp - lastO.tp) ≤ tol) (hvol : pyAbs (o.volume - lastO.volume) ≤ tol) :
    has_master_order_changed last o = false := by
  unfold has_master_order_changed
  rw [hl]
  simp [not_lt.mpr hprice, not_lt.mpr hsl, not_lt.mpr htp, not_lt.mpr hvol]

theorem detectBody_no_changes (last current : List (Nat × OrderInfo))
    (hkeys : ∀ t, (alookup t current).isSome = (alookup t last).isSome)
    (hfields : ∀ t o1 o2, alookup t last = some o1 → alookup t current = some o2 →
      pyAbs (o2.price - o1.price) ≤ tol ∧ pyAbs (o2.sl - o1.sl) ≤ tol ∧
        pyAbs (o2.tp - o1.tp) ≤ tol ∧ pyAbs (o2.volume - o1.volume) ≤ tol)
    (hkeyed : ∀ p ∈ current, p.2.ticket = p.1) :
    (detectBody last current).has_changes = false := by
  have hnew : newTickets last current = [] := by
    rw [newTickets, List.filter_eq_nil_iff]
    intro t ht
    have h1 : (alookup t last).isSome = true := by
      rw [← hkeys t]
      exact mem_keysOf_isSome ht
    rw [← elemKey_keysOf] at h1
    simp [h1]
  have hrm : removedTickets last current = [] := by
    rw [removedTickets, List.filter_eq_nil_iff]
    intro t ht
    have h1 : (alookup t current).isSome = true := by
      rw [hkeys t]
      exact mem_keysOf_isSome ht
    rw [← elemKey_keysOf] at h1
    simp [h1]
  have hmc : modifiedCount last current = 0 := by
    rw [modifiedCount, List.length_eq_zero, List.filter_eq_nil_iff]
    intro t ht
    have htc : t ∈ keysOf current := by
      rw [commonTickets] at ht
      exact List.mem_of_mem_filter ht
    obtain ⟨o, ho⟩ := Option.isSome_iff_exists.mp (mem_keysOf_isSome htc)
    have hticket : o.ticket = t := hkeyed (t, o) (alookup_mem ho)
    have hlast : (alookup t last).isSome = true := by
      rw [← hkeys t, ho]
      rfl
    obtain ⟨o1, ho1⟩ := Option.isSome_iff_exists.mp hlast
    obtain ⟨hp, hs, htp2, hv⟩ := hfields t o1 o ho1 ho
    have hchg : has_master_order_changed last o = false := by
      apply has_master_order_changed_false last o o1 _ hp hs htp2 hv
      rw [hticket]
      exact ho1
    simp [ho, hchg]
  unfold detectBody
  simp [hnew, hrm, hmc]

theorem buildMasterState_keyed_aux (orders : List OrderInfo) (acc : List (Nat × OrderInfo))
    (hacc : ∀ p ∈ acc, p.2.ticket = p.1) :
    ∀ p ∈ orders.foldl (fun d o => dictInsert o.ticket o d) acc, p.2.ticket = p.1 := by
  induction orders generalizing acc with
  | nil => exact hacc
  | cons o rest ih =>
    simp only [List.foldl_cons]
    apply ih
    intro p hp
    rcases mem_dictInsert hp with h | h
    · rw [h]
    · exact hacc p h

theorem buildMasterState_keyed (orders : List OrderInfo) :
    ∀ p ∈ buildMasterState orders, p.2.ticket = p.1 := by
  unfold buildMasterState
  exact buildMasterState_keyed_aux orders [] (by simp)

theorem run_copy_cycle_skip (followers : List AccountConfig) (st : CopierState) (env : CycleEnv)
    (h : (detect_master_changes st
      (buildMasterState (get_master_orders env.masterFetch))).has_changes = false) :
    (run_copy_cycle followers st env).2 = [] := by
  unfold run_copy_cycle
  try dsimp only
  rw [if_neg]
  rw [h]
  simp

/-- C1: for every (master ticket, follower) pair recorded in the manual-close
table `manually_closed`, no subsequent reconciliation cycle ever issues a
create (new-copy) action for that pair — in particular while the master
ticket is still present in the master snapshot.  The guard at the head of the
unlinked path of `_process_master_order` suppresses the re-copy, the record
is never removed, and the cleanup pass issues only closes and cancels. -/
theorem sticky_manual_close (followers : List AccountConfig) (st : CopierState)
    (envs : List CycleEnv) (t login : Nat) (req : SendRequest)
    (h : pairInMC st.manually_closed t login = true) :
    Action.create login t req ∉ (runCycles followers st envs).2 := by
  induction envs generalizing st with
  | nil => simp [runCycles]
  | cons e rest ih =>
    simp only [runCycles]
    intro hmem
    rw [List.mem_append] at hmem
    rcases hmem with hmem | hmem
    · exact run_copy_cycle_no_create followers st e t login req h hmem
    · exact ih _ (run_copy_cycle_mc followers st e t login h) hmem

/-- Witness for C1 at a concrete state: follower 7 is recorded as having
manually closed master ticket 100, ticket 100 is still open on the master,
and the cycle issues no create for the pair. -/
theorem sticky_manual_close_witness :
    pairInMC c1State.manually_closed 100 7 = true ∧
      elemKey 100 (keysOf (buildMasterState (get_master_orders c1Env.masterFetch))) = true ∧
      Action.create 7 100 c1Req ∉ (runCycles [c1Cfg] c1State [c1Env]).2 :=
  ⟨by decide, by decide, sticky_manual_close [c1Cfg] c1State [c1Env] 100 7 c1Req (by decide)⟩

/-- C2: if two consecutive cycles see master snapshots with the same ticket
set and per-ticket price/stop-loss/take-profit/volume deltas all within the
`1e-5` tolerance, the change detector reports no changes on the second pass
and the second cycle issues zero collaborator actions. -/
theorem idempotent_second_cycle (followers : List AccountConfig) (st : CopierState)
    (e1 e2 : CycleEnv)
    (hkeys : ∀ t, (alookup t (buildMasterState (get_master_orders e2.masterFetch))).isSome
      = (alookup t (buildMasterState (get_master_orders e1.masterFetch))).isSome)
    (hfields : ∀ t o1 o2,
      alookup t (buildMasterState (get_master_orders e1.masterFetch)) = some o1 →
      alookup t (buildMasterState (get_master_orders e2.masterFetch)) = some o2 →
      pyAbs (o2.price - o1.price) ≤ tol ∧ pyAbs (o2.sl - o1.sl) ≤ tol ∧
        pyAbs (o2.tp - o1.tp) ≤ tol ∧ pyAbs (o2.volume - o1.volume) ≤ tol) :
    (run_copy_cycle followers (run_copy_cycle followers st e1).1 e2).2 = [] := by
  apply run_copy_cycle_skip
  have hlast : (run_copy_cycle followers st e1).1.last_master_state
      = buildMasterState (get_master_orders e1.masterFetch) := run_copy_cycle_last followers st e1
  show (detectBody (run_copy_cycle followers st e1).1.last_master_state
    (buildMasterState (get_master_orders e2.masterFetch))).has_changes = false
  rw [hlast]
  exact detectBody_no_changes _ _ hkeys hfields
    (buildMasterState_keyed (get_master_orders e2.masterFetch))

/-- Witness for C2: two cycles over an unchanged (empty) master snapshot; the
second cycle's action trace is empty. -/
theorem idempotent_second_cycle_witness :
    (run_copy_cycle [] (run_copy_cycle [] initialState c2Env).1 c2Env).2 = [] :=
  idempotent_second_cycle [] initialState c2Env c2Env (fun _ => rfl)
    (fun _ _ _ h1 _ => nomatch h1)

/-- C8: the `except` handlers of `_detect_master_changes` and
`_has_master_order_changed` turn any internal error into
`has_changes = true` / `changed = true`, so an uncertain detector never
silently skips a follower synchronization pass. -/
theorem detector_error_defaults_to_changed :
    ∀ e : String, (detectOutcome (Except.error e)).has_changes = true ∧
      hasChangedOutcome (Except.error e) = true :=
  fun _ => ⟨rfl, rfl⟩

/-!  Rounding and clamping lemmas for lot sizing. -/

theorem pyRound_ge (x : ℚ) (a : ℤ) (ha : (a : ℚ) ≤ x) : a ≤ pyRound x := by
  have hf : a ≤ ⌊x⌋ := Int.le_floor.mpr ha
  unfold pyRound
  split_ifs <;> omega

theorem pyRound_le (x : ℚ) (b : ℤ) (hb : x ≤ (b : ℚ)) : pyRound x ≤ b := by
  have hfloor : ⌊x⌋ ≤ b := by
    have := Int.floor_le_floor hb
    simpa using this
  have hfl : (⌊x⌋ : ℚ) ≤ x := Int.floor_le x
  unfold pyRound
  split_ifs with h1 h2 h3
  · exact hfloor
  · have hx : (⌊x⌋ : ℚ) < (b : ℚ) := by linarith
    have : ⌊x⌋ < b := by exact_mod_cast hx
    omega
  · exact hfloor
  · have h4 : (1 : ℚ)/2 ≤ x - ⌊x⌋ := not_lt.mp h1
    have hx : (⌊x⌋ : ℚ) < (b : ℚ) := by linarith
    have : ⌊x⌋ < b := by exact_mod_cast hx
    omega

theorem le_pyMax_left (a b : ℚ) : a ≤ pyMax a b := by
  unfold pyMax
  split_ifs with h
  · exact le_refl a
  · exact le_of_not_le h

theorem pyMax_le (a b c : ℚ) (ha : a ≤ c) (hb : b ≤ c) : pyMax a b ≤ c := by
  unfold pyMax
  split_ifs <;> assumption

theorem pyMin_le_left (a b : ℚ) : pyMin a b ≤ a := by
  unfold pyMin
  split_ifs with h
  · exact le_refl a
  · exact le_of_not_le h

theorem clampAndRound_bounded (c : ℚ) (cfg : AccountConfig) (si : SymbolInfo) (mv : ℚ)
    (a b : ℤ) (hstep : 0 < si.volume_step)
    (hmin : cfg.min_lot = (a : ℚ) * si.volume_step)
    (hmax : cfg.max_lot = (b : ℚ) * si.volume_step)
    (hmm : cfg.min_lot ≤ cfg.max_lot) :
    cfg.min_lot ≤ clampAndRound c cfg (some si) mv ∧
      clampAndRound c cfg (some si) mv ≤ cfg.max_lot ∧
      ∃ k : ℤ, clampAndRound c cfg (some si) mv = (k : ℚ) * si.volume_step := by
  have hne : si.volume_step ≠ 0 := ne_of_gt hstep
  have hval : clampAndRound c cfg (some si) mv
      = (pyRound (pyMax cfg.min_lot (pyMin cfg.max_lot c) / si.volume_step) : ℚ)
        * si.volume_step := by
    unfold clampAndRound
    dsimp only
    rw [if_neg hne]
  have h1 : cfg.min_lot ≤ pyMax cfg.min_lot (pyMin cfg.max_lot c) := le_pyMax_left _ _
  have h2 : pyMax cfg.min_lot (pyMin cfg.max_lot c) ≤ cfg.max_lot :=
    pyMax_le _ _ _ hmm (pyMin_le_left _ _)
  have hya : (a : ℚ) ≤ pyMax cfg.min_lot (pyMin cfg.max_lot c) / si.volume_step := by
    rw [le_div_iff₀ hstep, ← hmin]
    exact h1
  have hyb : pyMax cfg.min_lot (pyMin cfg.max_lot c) / si.volume_step ≤ (b : ℚ) := by
    rw [div_le_iff₀ hstep, ← hmax]
    exact h2
  have hra : a ≤ pyRound (pyMax cfg.min_lot (pyMin cfg.max_lot c) / si.volume_step) :=
    pyRound_ge _ a hya
  have hrb : pyRound (pyMax cfg.min_lot (pyMin cfg.max_lot c) / si.volume_step) ≤ b :=
    pyRound_le _ b hyb
  refine ⟨?_, ?_, ⟨pyRound (pyMax cfg.min_lot (pyMin cfg.max_lot c) / si.volume_step), hval⟩⟩
  · rw [hval]
    calc cfg.min_lot = (a : ℚ) * si.volume_step := hmin
      _ ≤ (pyRound (pyMax cfg.min_lot (pyMin cfg.max_lot c) / si.volume_step) : ℚ)
          * si.volume_step :=
        mul_le_mul_of_nonneg_right (by exact_mod_cast hra) (le_of_lt hstep)
  · rw [hval]
    calc (pyRound (pyMax cfg.min_lot (pyMin cfg.max_lot c) / si.volume_step) : ℚ)
          * si.volume_step
        ≤ (b : ℚ) * si.volume_step :=
          mul_le_mul_of_nonneg_right (by exact_mod_cast hrb) (le_of_lt hstep)
      _ = cfg.max_lot := hmax.symm

/-- C5 (amended): whenever `calculate_lot_size` reaches its clamp-and-round
stage (always, except the fail-open early returns of percent-balance sizing)
and the bounds are themselves integer multiples of a positive `volume_step`,
the result is clamped to `[min_lot, max_lot]` first, then rounded, and lands
both inside the bounds and on the `volume_step` grid.  (Without the
grid-alignment proviso the rounding can leave the bounds — see the
counterexample.) -/
theorem lot_size_bounded_quantized (mv : ℚ) (cfg : AccountConfig) (bal : Option ℚ)
    (siP : Option SymbolInfo) (si : SymbolInfo) (a b : ℤ)
    (hstep : 0 < si.volume_step)
    (hmin : cfg.min_lot = (a : ℚ) * si.volume_step)
    (hmax : cfg.max_lot = (b : ℚ) * si.volume_step)
    (hmm : cfg.min_lot ≤ cfg.max_lot)
    (hpercent : cfg.lot_calculation = LotCalculationType.percent_balance →
      ∃ bb sip, bal = some bb ∧ siP = some sip ∧
        sip.trade_contract_size * sip.trade_tick_value ≠ 0) :
    cfg.min_lot ≤ calculate_lot_size mv cfg bal siP (some si) ∧
      calculate_lot_size mv cfg bal siP (some si) ≤ cfg.max_lot ∧
      ∃ k : ℤ, calculate_lot_size mv cfg bal siP (some si) = (k : ℚ) * si.volume_step := by
  cases hcalc : cfg.lot_calculation with
  | fixed =>
    simp only [calculate_lot_size, hcalc]
    exact clampAndRound_bounded _ cfg si mv a b hstep hmin hmax hmm
  | multiplier =>
    simp only [calculate_lot_size, hcalc]
    exact clampAndRound_bounded _ cfg si mv a b hstep hmin hmax hmm
  | risk_based =>
    simp only [calculate_lot_size, hcalc]
    exact clampAndRound_bounded _ cfg si mv a b hstep hmin hmax hmm
  | percent_balance =>
    obtain ⟨bb, sip, hb, hs, hnz⟩ := hpercent hcalc
    simp only [calculate_lot_size, hcalc, hb, hs]
    rw [if_neg hnz]
    exact clampAndRound_bounded _ cfg si mv a b hstep hmin hmax hmm

/-- Witness for C5 (amended) at a concrete input: multiplier 1/2 of a 1-lot
master order with step-aligned bounds gives 0.5, inside the bounds and on
the grid. -/
theorem lot_size_bounded_quantized_witness :
    c5WitCfg.min_lot ≤ calculate_lot_size 1 c5WitCfg none none (some c5WitSi) ∧
      calculate_lot_size 1 c5WitCfg none none (some c5WitSi) ≤ c5WitCfg.max_lot ∧
      ∃ k : ℤ, calculate_lot_size 1 c5WitCfg none none (some c5WitSi)
        = (k : ℚ) * c5WitSi.volume_step :=
  lot_size_bounded_quantized 1 c5WitCfg none none c5WitSi 1 500 (by decide) (by decide)
    (by decide) (by decide) (fun h => nomatch h)

/-- C5 counterexample: with master volume 6, multiplier 1, bounds
`[0.01, 5.0]` and `volume_step = 0.3`, the clamp yields 5.0 but the rounding
then returns 5.1, strictly above `max_lot` — the claimed bound does not
survive the rounding step. -/
theorem lot_size_out_of_bounds_counterexample :
    calculate_lot_size 6 c5Cfg none none (some c5Si) = 51/10 ∧
      ¬ (calculate_lot_size 6 c5Cfg none none (some c5Si) ≤ c5Cfg.max_lot) := by
  constructor
  · decide
  · decide

/-!  C6: the modification-tolerance threshold. -/

theorem sl_changed_false_iff (m : OrderInfo) (f : FollowerOrder) :
    sl_changed m f = false ↔ pyAbs (m.sl - f.sl) ≤ tol := by
  unfold sl_changed
  rw [decide_eq_false_iff_not, not_lt]

theorem tp_changed_false_iff (m : OrderInfo) (f : FollowerOrder) :
    tp_changed m f = false ↔ pyAbs (m.tp - f.tp) ≤ tol := by
  unfold tp_changed
  rw [decide_eq_false_iff_not, not_lt]

theorem price_changed_false_iff (m : OrderInfo) (f : FollowerOrder) :
    price_changed m f = false ↔ ∀ fp, f.price_open = some fp → pyAbs (m.price - fp) ≤ tol := by
  unfold price_changed
  cases hp : f.price_open with
  | none => simp
  | some fp =>
    rw [decide_eq_false_iff_not, not_lt]
    constructor
    · intro h fp2 h2
      rw [Option.some.injEq] at h2
      rw [← h2]
      exact h
    · intro h
      exact h fp rfl

/-- C6 (amended): for a compared pair, no modify call is issued exactly when
every compared field delta (stop-loss, take-profit, and price when the
follower record carries `price_open`) is at or below the `1e-5` tolerance;
and when a modify is issued it is exactly one call carrying precisely the
fields whose delta is strictly above the tolerance.  (The source compares
with strict `> 0.00001`, so a delta of exactly `1e-5` issues no call — see
the counterexample.) -/
theorem modify_tolerance_threshold (login : Nat) (m : OrderInfo) (f : FollowerOrder) :
    (modificationActions login m f = [] ↔
      pyAbs (m.sl - f.sl) ≤ tol ∧ pyAbs (m.tp - f.tp) ≤ tol ∧
        (∀ fp, f.price_open = some fp → pyAbs (m.price - fp) ≤ tol)) ∧
    (modificationActions login m f ≠ [] →
      modificationActions login m f = [Action.modify login f.ticket
        (if price_changed m f then some m.price else none)
        (if sl_changed m f then some m.sl else none)
        (if tp_changed m f then some m.tp else none)]) := by
  have hempty : modificationActions login m f = []
      ↔ (sl_changed m f || tp_changed m f || price_changed m f) = false := by
    unfold modificationActions check_order_modifications
    by_cases hcond : (sl_changed m f || tp_changed m f || price_changed m f) = true
    · rw [if_pos hcond]
      simp [hcond]
    · rw [if_neg hcond]
      simp only [Bool.not_eq_true] at hcond
      simp [hcond]
  constructor
  · rw [hempty]
    rw [Bool.or_eq_false_iff, Bool.or_eq_false_iff]
    rw [sl_changed_false_iff, tp_changed_false_iff, price_changed_false_iff]
    exact and_assoc
  · intro hne
    unfold modificationActions check_order_modifications
    by_cases hcond : (sl_changed m f || tp_changed m f || price_changed m f) = true
    · rw [if_pos hcond]
    · exfalso
      apply hne
      rw [hempty]
      simpa using hcond

/-- Witness for C6 (amended): a stop-loss delta of `2e-5` (strictly above
tolerance) issues exactly one modify call carrying only the stop-loss. -/
theorem modify_tolerance_threshold_witness :
    modificationActions 7 c6Master c6F2 = [Action.modify 7 c6F2.ticket
      (if price_changed c6Master c6F2 then some c6Master.price else none)
      (if sl_changed c6Master c6F2 then some c6Master.sl else none)
      (if tp_changed c6Master c6F2 then some c6Master.tp else none)] :=
  (modify_tolerance_threshold 7 c6Master c6F2).2 (by decide)

/-- C6 counterexample: a linked pair whose master order is marked modified
and whose stop-loss delta against the follower's live order is exactly
`1e-5` — at the tolerance — yet the sync pass issues no modify call (the
source triggers only on strict `>`). -/
theorem modify_at_tolerance_counterexample :
    tol ≤ pyAbs (c6Master.sl - c6F.sl) ∧
      has_master_order_changed c6State.last_master_state c6Master = true ∧
      linkEntry c6State 1 7 = some 2 ∧
      (sync_orders_to_follower c6State c6Cfg [c6Master] c6EnvF).2 = [] := by
  refine ⟨by decide, by decide, by decide, by decide⟩

/-!  C7: fail-open lot sizing versus the symbol-availability gate. -/

theorem percent_sizing_missing_metadata (mv : ℚ) (cfg : AccountConfig) (bal : Option ℚ)
    (rI : Option SymbolInfo) (hcalc : cfg.lot_calculation = LotCalculationType.percent_balance) :
    calculate_lot_size mv cfg bal none rI = mv := by
  unfold calculate_lot_size
  rw [hcalc]
  cases bal <;> rfl

/-- C7 (amended): (i) when symbol metadata is unavailable inside
percent-balance sizing the calculator fails open to the raw master volume;
(iii) if the symbol-availability check at the start of `_copy_new_order`
succeeded but the sizing lookup failed, the copy proceeds, issuing exactly
one create request carrying the raw master volume; but (ii) when the
availability check itself finds no metadata the copy attempt is skipped
entirely — contrary to the claim, a copy attempt *is* aborted in that case. -/
theorem lot_sizing_fail_open (st : CopierState) (m : OrderInfo) (cfg : AccountConfig)
    (env : FollowerEnv) (si : SymbolInfo) :
    (cfg.lot_calculation = LotCalculationType.percent_balance →
      ∀ (bal : Option ℚ) (rI : Option SymbolInfo),
        calculate_lot_size m.volume cfg bal none rI = m.volume) ∧
    (env.symInfoCheck (map_symbol m.symbol cfg) = none →
      copy_new_order st m cfg env = (st, [])) ∧
    (env.symInfoCheck (map_symbol m.symbol cfg) = some si →
      cfg.lot_calculation = LotCalculationType.percent_balance →
      env.symInfoPercent (map_symbol m.symbol cfg) = none →
      ∃ req : SendRequest, (copy_new_order st m cfg env).2 = [Action.create cfg.login m.ticket req]
        ∧ req.volume = m.volume) := by
  refine ⟨?_, ?_, ?_⟩
  · intro hcalc bal rI
    exact percent_sizing_missing_metadata m.volume cfg bal rI hcalc
  · intro hnone
    unfold copy_new_order
    try dsimp only
    rw [hnone]
  · intro hcheck hcalc hperc
    unfold copy_new_order
    try dsimp only
    rw [hcheck]
    have hv : calculate_lot_size m.volume cfg env.balance
        (env.symInfoPercent (map_symbol m.symbol cfg))
        (env.symInfoRound (map_symbol m.symbol cfg)) = m.volume := by
      rw [hperc]
      exact percent_sizing_missing_metadata m.volume cfg env.balance _ hcalc
    cases hsend : env.sendResult
        { symbol := map_symbol m.symbol cfg, order_type := m.order_type,
          volume := calculate_lot_size m.volume cfg env.balance
            (env.symInfoPercent (map_symbol m.symbol cfg))
            (env.symInfoRound (map_symbol m.symbol cfg)),
          price := m.price, sl := m.sl, tp := m.tp,
          comment := "Copy:" ++ toString m.ticket, magic := cfg.magic_number } with
    | none =>
      exact ⟨_, rfl, hv⟩
    | some ft =>
      exact ⟨_, rfl, hv⟩

/-- Witness for C7 (amended), part (iii): availability check passes, the
percent-balance sizing lookup fails, and the copy still proceeds with the
raw master volume (2 lots). -/
theorem lot_sizing_fail_open_witness :
    ∃ req : SendRequest,
      (copy_new_order initialState c7Master c7Cfg c7EnvPartial).2
        = [Action.create c7Cfg.login c7Master.ticket req] ∧ req.volume = c7Master.volume :=
  (lot_sizing_fail_open initialState c7Master c7Cfg c7EnvPartial c7Si).2.2 rfl rfl rfl

/-- C7 counterexample: when the symbol metadata is missing at the
availability check of `_copy_new_order` (lines 714-717), the copy attempt is
aborted outright — no create request is issued — so a copy attempt *can* be
aborted solely because symbol metadata is missing. -/
theorem copy_aborted_on_missing_metadata_counterexample :
    c7EnvNone.symInfoCheck (map_symbol c7Master.symbol c7Cfg) = none ∧
      copy_new_order initialState c7Master c7Cfg c7EnvNone = (initialState, []) := by
  refine ⟨rfl, by decide⟩

/-!  C4: the two orphan signals are not deduplicated. -/

theorem mem_ordersToCloseByComment (live : List (Nat × FollowerOrder)) (magic : Nat)
    (masterTickets : List Nat) (ft t : Nat) (o : FollowerOrder)
    (hmem : (ft, o) ∈ live) (hmagic : o.magic = magic)
    (hcomment : parseCopyComment o.comment = some t)
    (habsent : elemKey t masterTickets = false) :
    (⟨ft, o, t⟩ : CloseItem) ∈ ordersToCloseByComment live magic masterTickets := by
  unfold ordersToCloseByComment
  rw [List.mem_filterMap]
  refine ⟨(ft, o), hmem, ?_⟩
  simp [hmagic, hcomment, habsent]

theorem mem_ordersToCloseByTracking (st : CopierState) (login : Nat)
    (live : List (Nat × FollowerOrder)) (masterTickets : List Nat)
    (t ft : Nat) (fs : List (Nat × Nat)) (o : FollowerOrder)
    (hlink : alookup t st.follower_orders = some fs)
    (hfs : alookup login fs = some ft)
    (hlive : alookup ft live = some o)
    (habsent : elemKey t masterTickets = false) :
    (⟨ft, o, t⟩ : CloseItem) ∈ ordersToCloseByTracking st login live masterTickets := by
  unfold ordersToCloseByTracking
  rw [List.mem_filterMap]
  refine ⟨(t, fs), alookup_mem hlink, ?_⟩
  simp [habsent, hfs, hlive]

/-- C4 (amended): the two orphan-detection signals are collected into one
work list *without* deduplication; a follower order that is both internally
tracked and carries a decodable `Copy:` comment pointing at an absent master
ticket receives one close/cancel action from each signal — at least two
collaborator actions for the same follower ticket in a single cleanup pass,
refuting at-most-one-action-per-follower-ticket. -/
theorem orphan_double_close (st : CopierState) (cfg : AccountConfig) (ms : List OrderInfo)
    (live : List (Nat × FollowerOrder)) (env : FollowerEnv)
    (t ft : Nat) (fs : List (Nat × Nat)) (o : FollowerOrder)
    (hmem : (ft, o) ∈ live) (hmagic : o.magic = cfg.magic_number)
    (hcomment : parseCopyComment o.comment = some t)
    (habsent : elemKey t (ms.map (fun m => m.ticket)) = false)
    (hlink : alookup t st.follower_orders = some fs)
    (hfs : alookup cfg.login fs = some ft)
    (hlive : alookup ft live = some o) :
    2 ≤ List.countP (fun a => decide (a = cleanupAction cfg.login ⟨ft, o, t⟩))
      (cleanup_orphaned_orders st ms live cfg env).2 := by
  have h1 := mem_ordersToCloseByComment live cfg.magic_number (ms.map (fun m => m.ticket))
    ft t o hmem hmagic hcomment habsent
  have h2 := mem_ordersToCloseByTracking st cfg.login live (ms.map (fun m => m.ticket))
    t ft fs o hlink hfs hlive habsent
  unfold cleanup_orphaned_orders
  try dsimp only
  rw [cleanupExec_trace, List.map_append, List.countP_append, List.countP_map, List.countP_map]
  have e1 : 0 < List.countP
      ((fun a => decide (a = cleanupAction cfg.login ⟨ft, o, t⟩)) ∘ cleanupAction cfg.login)
      (ordersToCloseByComment live cfg.magic_number (ms.map (fun m => m.ticket))) :=
    List.countP_pos_iff.mpr ⟨⟨ft, o, t⟩, h1, by simp⟩
  have e2 : 0 < List.countP
      ((fun a => decide (a = cleanupAction cfg.login ⟨ft, o, t⟩)) ∘ cleanupAction cfg.login)
      (ordersToCloseByTracking st cfg.login live (ms.map (fun m => m.ticket))) :=
    List.countP_pos_iff.mpr ⟨⟨ft, o, t⟩, h2, by simp⟩
  omega

/-- Witness for C4 (amended): in the concrete double-signal scenario the
cleanup pass issues at least two close actions for follower ticket 600. -/
theorem orphan_double_close_witness :
    2 ≤ List.countP (fun a => decide (a = cleanupAction c4Cfg.login ⟨600, c4F, 200⟩))
      (cleanup_orphaned_orders c4State [] (buildLiveOrders c4EnvF c4Cfg.magic_number)
        c4Cfg c4EnvF).2 :=
  orphan_double_close c4State c4Cfg [] (buildLiveOrders c4EnvF c4Cfg.magic_number) c4EnvF
    200 600 [(9, 600)] c4F (by decide) (by decide) (by decide) (by decide) (by decide)
    (by decide) (by decide)

/-- C4 counterexample: a full reconciliation cycle in which master ticket 200
has disappeared and follower 9's position 600 is both tracked and
comment-decodable issues the close call for ticket 600 twice — the same
follower ticket is acted on twice in one cycle. -/
theorem double_close_counterexample :
    (run_copy_cycle [c4Cfg] c4State c4Env).2 = [Action.close 9 600, Action.close 9 600] := by
  decide

/-!  C9: magic-number scoping of everything the engine touches. -/

theorem foldl_insertTracked_prop (magic : Nat) :
    ∀ (orders : List FollowerOrder) (acc : List (Nat × FollowerOrder))
      (P : Nat × FollowerOrder → Prop),
      (∀ p ∈ acc, P p) →
      (∀ o ∈ orders, o.magic = magic → P (o.ticket, o)) →
      ∀ p ∈ orders.foldl (insertTracked magic) acc, P p := by
  intro orders
  induction orders with
  | nil =>
    intro acc P hacc hins p hp
    exact hacc p hp
  | cons o rest ih =>
    intro acc P hacc hins p hp
    simp only [List.foldl_cons] at hp
    refine ih (insertTracked magic acc o) P ?_ ?_ p hp
    · intro q hq
      unfold insertTracked at hq
      by_cases hm : o.magic = magic
      · rw [if_pos hm] at hq
        rcases mem_dictInsert hq with h | h
        · rw [h]
          exact hins o (List.mem_cons_self _ _) hm
        · exact hacc q h
      · rw [if_neg hm] at hq
        exact hacc q hq
    · intro o2 ho2 hm
      exact hins o2 (List.mem_cons_of_mem _ ho2) hm

theorem mem_buildLiveOrders (env : FollowerEnv) (magic : Nat) (p : Nat × FollowerOrder)
    (h : p ∈ buildLiveOrders env magic) :
    p.2.magic = magic ∧ p.2.ticket = p.1 ∧ (p.2 ∈ env.pendingOrders ∨ p.2 ∈ env.positions) := by
  unfold buildLiveOrders at h
  refine foldl_insertTracked_prop magic env.positions
    (env.pendingOrders.foldl (insertTracked magic) [])
    (fun q => q.2.magic = magic ∧ q.2.ticket = q.1
      ∧ (q.2 ∈ env.pendingOrders ∨ q.2 ∈ env.positions)) ?_ ?_ p h
  · intro q hq
    refine foldl_insertTracked_prop magic env.pendingOrders []
      (fun r => r.2.magic = magic ∧ r.2.ticket = r.1
        ∧ (r.2 ∈ env.pendingOrders ∨ r.2 ∈ env.positions)) ?_ ?_ q hq
    · intro r hr
      simp at hr
    · intro o ho hm
      exact ⟨hm, rfl, Or.inl ho⟩
  · intro o ho hm
    exact ⟨hm, rfl, Or.inr ho⟩

theorem modificationActions_ticket (login : Nat) (m : OrderInfo) (f : FollowerOrder) :
    ∀ a ∈ modificationActions login m f, actionFollowerTicket a = some f.ticket := by
  unfold modificationActions
  split
  · intro a ha
    simp at ha
    rw [ha]
    rfl
  · intro a ha
    simp at ha

theorem cleanupAction_ticket (login : Nat) (item : CloseItem) :
    actionFollowerTicket (cleanupAction login item) = some item.ticket := by
  unfold cleanupAction
  split <;> rfl

theorem process_action_ticket (st : CopierState) (m : OrderInfo) (cfg : AccountConfig)
    (env : FollowerEnv) (live : List (Nat × FollowerOrder)) :
    ∀ a ∈ (process_master_order st m cfg env live).2, ∀ ft,
      actionFollowerTicket a = some ft →
      ∃ p : Nat × FollowerOrder, p ∈ live ∧ p.2.ticket = ft := by
  intro a ha ft hft
  have hcreate : a ∈ (processUnlinked st m cfg env).2 → False := by
    intro ha2
    obtain ⟨req2, he⟩ := processUnlinked_trace_shape st m cfg env a ha2
    rw [he] at hft
    simp [actionFollowerTicket] at hft
  unfold process_master_order at ha
  revert ha
  try dsimp only
  cases h1 : alookup m.ticket st.follower_orders with
  | none =>
    try dsimp only
    exact fun ha => (hcreate ha).elim
  | some followers =>
    try dsimp only
    cases h2 : alookup cfg.login followers with
    | none =>
      try dsimp only
      exact fun ha => (hcreate ha).elim
    | some ftk =>
      try dsimp only
      cases h3 : alookup ftk live with
      | some fOrder =>
        intro ha
        dsimp only at ha
        by_cases hch : has_master_order_changed st.last_master_state m = true
        · rw [if_pos hch] at ha
          have h4 := modificationActions_ticket cfg.login m fOrder a ha
          have h5 : ft = fOrder.ticket := Option.some.inj (hft.symm.trans h4)
          exact ⟨(ftk, fOrder), alookup_mem h3, h5.symm⟩
        · rw [if_neg hch] at ha
          simp at ha
      | none =>
        intro ha
        dsimp only at ha
        split at ha <;> simp at ha

theorem processAll_action_ticket (cfg : AccountConfig) (env : FollowerEnv)
    (live : List (Nat × FollowerOrder)) (st : CopierState) (ms : List OrderInfo) :
    ∀ a ∈ (processAll cfg env live st ms).2, ∀ ft, actionFollowerTicket a = some ft →
      ∃ p : Nat × FollowerOrder, p ∈ live ∧ p.2.ticket = ft := by
  induction ms generalizing st with
  | nil =>
    intro a ha
    simp [processAll] at ha
  | cons m rest ih =>
    intro a ha ft hft
    simp only [processAll] at ha
    rw [List.mem_append] at ha
    rcases ha with ha | ha
    · exact process_action_ticket st m cfg env live a ha ft hft
    · exact ih _ a ha ft hft

theorem ordersToCloseByComment_mem_live (live : List (Nat × FollowerOrder)) (magic : Nat)
    (masterTickets : List Nat) (item : CloseItem)
    (h : item ∈ ordersToCloseByComment live magic masterTickets) :
    (item.ticket, item.order) ∈ live := by
  unfold ordersToCloseByComment at h
  rw [List.mem_filterMap] at h
  obtain ⟨p, hp, hf⟩ := h
  by_cases h1 : p.2.magic ≠ magic
  · rw [if_pos h1] at hf
    simp at hf
  · rw [if_neg h1] at hf
    cases h2 : parseCopyComment p.2.comment with
    | none =>
      simp only [h2] at hf
      exact absurd hf (by simp)
    | some mt =>
      simp only [h2] at hf
      by_cases h3 : elemKey mt masterTickets = true
      · rw [if_pos h3] at hf
        simp at hf
      · rw [if_neg h3] at hf
        have he : item = ⟨p.1, p.2, mt⟩ := (Option.some.inj hf).symm
        rw [he]
        rw [show ((⟨p.1, p.2, mt⟩ : CloseItem).ticket, (⟨p.1, p.2, mt⟩ : CloseItem).order)
          = (p.1, p.2) from rfl, Prod.mk.eta]
        exact hp

theorem ordersToCloseByTracking_lookup_live (st : CopierState) (login : Nat)
    (live : List (Nat × FollowerOrder)) (masterTickets : List Nat) (item : CloseItem)
    (h : item ∈ ordersToCloseByTracking st login live masterTickets) :
    alookup item.ticket live = some item.order := by
  unfold ordersToCloseByTracking at h
  rw [List.mem_filterMap] at h
  obtain ⟨p, hp, hf⟩ := h
  by_cases h1 : elemKey p.1 masterTickets = true
  · rw [if_pos h1] at hf
    simp at hf
  · rw [if_neg h1] at hf
    cases h2 : alookup login p.2 with
    | none =>
      simp only [h2] at hf
      exact absurd hf (by simp)
    | some ftk =>
      simp only [h2] at hf
      cases h3 : alookup ftk live with
      | none =>
        simp only [h3] at hf
        exact absurd hf (by simp)
      | some o2 =>
        simp only [h3] at hf
        have he : item = ⟨ftk, o2, p.1⟩ := (Option.some.inj hf).symm
        rw [he]
        exact h3

/-- C9: every modify/close/cancel the engine issues for a follower targets a
ticket belonging to a live follower-side order that carries the follower's
configured magic number; the live dict is built magic-filtered and both
orphan signals draw from it (the comment signal re-checks the magic), so
untagged orders are never acted upon. -/
theorem magic_scoping (st : CopierState) (cfg : AccountConfig) (ms : List OrderInfo)
    (env : FollowerEnv) (a : Action) (ft : Nat)
    (hmem : a ∈ (sync_orders_to_follower st cfg ms env).2)
    (hft : actionFollowerTicket a = some ft) :
    ∃ o : FollowerOrder, (o ∈ env.pendingOrders ∨ o ∈ env.positions) ∧
      o.ticket = ft ∧ o.magic = cfg.magic_number := by
  unfold sync_orders_to_follower at hmem
  by_cases hconn : env.connectOk = true
  · rw [if_pos hconn] at hmem
    dsimp only at hmem
    rw [List.mem_append] at hmem
    rcases hmem with hmem | hmem
    · obtain ⟨p, hp, hpt⟩ := processAll_action_ticket cfg env _ st ms a hmem ft hft
      obtain ⟨hma, hti, hor⟩ := mem_buildLiveOrders env cfg.magic_number p hp
      exact ⟨p.2, hor, hpt, hma⟩
    · unfold cleanup_orphaned_orders at hmem
      dsimp only at hmem
      rw [cleanupExec_trace, List.mem_map] at hmem
      obtain ⟨item, hitem, hact⟩ := hmem
      have hftid : ft = item.ticket := by
        rw [← hact] at hft
        exact Option.some.inj ((cleanupAction_ticket cfg.login item).symm.trans hft).symm
      rw [List.mem_append] at hitem
      have hlive : (item.ticket, item.order) ∈ buildLiveOrders env cfg.magic_number := by
        rcases hitem with hitem | hitem
        · exact ordersToCloseByComment_mem_live _ _ _ item hitem
        · exact alookup_mem (ordersToCloseByTracking_lookup_live _ cfg.login _ _ item hitem)
      obtain ⟨hma, hti, hor⟩ := mem_buildLiveOrders env cfg.magic_number _ hlive
      refine ⟨item.order, hor, ?_, hma⟩
      rw [hftid]
      exact hti
  · rw [if_neg hconn] at hmem
    simp at hmem

/-- Witness for C9: in the orphan scenario the cancel issued for follower
ticket 800 indeed targets a live pending order carrying magic 55. -/
theorem magic_scoping_witness :
    ∃ o : FollowerOrder, (o ∈ c9EnvF.pendingOrders ∨ o ∈ c9EnvF.positions) ∧
      o.ticket = 800 ∧ o.magic = c9Cfg.magic_number :=
  magic_scoping c9State c9Cfg [] c9EnvF (Action.cancel 3 800) 800 (by decide) rfl

/-!  C3: what the cleanup pass does and does not purge.  The well-formedness
lemmas below are needed because the model represents Python dicts as
association lists: a real dict cannot hold a key twice. -/

theorem mem_dictErase {κ α : Type} [DecidableEq κ] {x : κ × α} {k : κ} {d : List (κ × α)}
    (h : x ∈ dictErase k d) : x ∈ d := by
  induction d with
  | nil => simp [dictErase] at h
  | cons p rest ih =>
    unfold dictErase at h
    by_cases hp : p.1 = k
    · rw [if_pos hp] at h
      exact List.mem_cons_of_mem _ h
    · rw [if_neg hp] at h
      rcases List.mem_cons.mp h with h2 | h2
      · rw [h2]
        exact List.mem_cons_self _ _
      · exact List.mem_cons_of_mem _ (ih h2)

theorem mem_keys_dictInsert {κ α : Type} [DecidableEq κ] {x k : κ} {v : α} {d : List (κ × α)}
    (h : x ∈ (dictInsert k v d).map Prod.fst) : x = k ∨ x ∈ d.map Prod.fst := by
  rw [List.mem_map] at h
  obtain ⟨p, hp, he⟩ := h
  rcases mem_dictInsert hp with h2 | h2
  · left
    rw [← he, h2]
  · right
    rw [← he]
    exact List.mem_map_of_mem _ h2

theorem nodup_keys_dictErase {κ α : Type} [DecidableEq κ] (k : κ) (d : List (κ × α))
    (h : (d.map Prod.fst).Nodup) : ((dictErase k d).map Prod.fst).Nodup := by
  induction d with
  | nil => simp [dictErase]
  | cons p rest ih =>
    rw [List.map_cons, List.nodup_cons] at h
    unfold dictErase
    by_cases hp : p.1 = k
    · rw [if_pos hp]
      exact h.2
    · rw [if_neg hp]
      rw [List.map_cons, List.nodup_cons]
      refine ⟨?_, ih h.2⟩
      intro hmem
      apply h.1
      rw [List.mem_map] at hmem ⊢
      obtain ⟨q, hq, he⟩ := hmem
      exact ⟨q, mem_dictErase hq, he⟩

theorem nodup_keys_dictInsert {κ α : Type} [DecidableEq κ] (k : κ) (v : α) (d : List (κ × α))
    (h : (d.map Prod.fst).Nodup) : ((dictInsert k v d).map Prod.fst).Nodup := by
  induction d with
  | nil => simp [dictInsert]
  | cons p rest ih =>
    rw [List.map_cons, List.nodup_cons] at h
    unfold dictInsert
    by_cases hp : p.1 = k
    · rw [if_pos hp]
      rw [List.map_cons, List.nodup_cons]
      rw [← hp]
      exact h
    · rw [if_neg hp]
      rw [List.map_cons, List.nodup_cons]
      refine ⟨?_, ih h.2⟩
      intro hmem
      rcases mem_keys_dictInsert hmem with h2 | h2
      · exact hp h2
      · exact h.1 h2

theorem alookup_eq_none {κ α : Type} [DecidableEq κ] {k : κ} {d : List (κ × α)}
    (h : ¬ k ∈ d.map Prod.fst) : alookup k d = none := by
  induction d with
  | nil => rfl
  | cons p rest ih =>
    unfold alookup
    by_cases hk : k = p.1
    · exact absurd (by rw [hk]; exact List.mem_map_of_mem _ (List.mem_cons_self _ _)) h
    · rw [if_neg hk]
      refine ih ?_
      intro h2
      exact h (List.mem_cons_of_mem _ (by simpa using h2))

theorem alookup_dictErase_self {κ α : Type} [DecidableEq κ] (k : κ) (d : List (κ × α))
    (hnd : (d.map Prod.fst).Nodup) : alookup k (dictErase k d) = none := by
  induction d with
  | nil => rfl
  | cons p rest ih =>
    rw [List.map_cons, List.nodup_cons] at hnd
    unfold dictErase
    by_cases hp : p.1 = k
    · rw [if_pos hp]
      apply alookup_eq_none
      rw [← hp]
      exact hnd.1
    · rw [if_neg hp]
      unfold alookup
      by_cases hk : k = p.1
      · exact absurd hk.symm hp
      · rw [if_neg hk]
        exact ih hnd.2

theorem wfFO_dictErase (fo : List (Nat × List (Nat × Nat))) (k : Nat) (h : wfFO fo) :
    wfFO (dictErase k fo) :=
  ⟨nodup_keys_dictErase k fo h.1, fun p hp => h.2 p (mem_dictErase hp)⟩

theorem wfFO_dictInsert (fo : List (Nat × List (Nat × Nat))) (k : Nat)
    (row : List (Nat × Nat)) (h : wfFO fo) (hrow : (row.map Prod.fst).Nodup) :
    wfFO (dictInsert k row fo) := by
  refine ⟨nodup_keys_dictInsert k row fo h.1, ?_⟩
  intro p hp
  rcases mem_dictInsert hp with h2 | h2
  · rw [h2]
    exact hrow
  · exact h.2 p h2

theorem cleanupStep_wf (login : Nat) (env : FollowerEnv) (st : CopierState) (item : CloseItem)
    (h : wfFO st.follower_orders) : wfFO (cleanupStep login env st item).follower_orders := by
  unfold cleanupStep
  by_cases hs : cleanupSuccess env item = true
  · rw [if_pos hs]
    cases hl : alookup item.masterTicket st.follower_orders with
    | none => exact h
    | some fs =>
      try dsimp only
      by_cases he : (dictErase login fs).isEmpty = true
      · rw [if_pos he]
        exact wfFO_dictErase st.follower_orders item.masterTicket h
      · rw [if_neg he]
        exact wfFO_dictInsert st.follower_orders item.masterTicket _ h
          (nodup_keys_dictErase login fs (h.2 (item.masterTicket, fs) (alookup_mem hl)))
  · rw [if_neg hs]
    exact h

theorem cleanupStep_linkAbsent (login : Nat) (env : FollowerEnv) (st : CopierState)
    (item : CloseItem) (t : Nat) (hwf : wfFO st.follower_orders)
    (h : linkAbsent st t login = true) :
    linkAbsent (cleanupStep login env st item) t login = true := by
  unfold cleanupStep
  by_cases hs : cleanupSuccess env item = true
  · rw [if_pos hs]
    cases hl : alookup item.masterTicket st.follower_orders with
    | none => exact h
    | some fs =>
      try dsimp only
      by_cases he : (dictErase login fs).isEmpty = true
      · rw [if_pos he]
        unfold linkAbsent at h ⊢
        by_cases ht : t = item.masterTicket
        · subst ht
          simp only [alookup_dictErase_self _ st.follower_orders hwf.1]
        · rw [alookup_dictErase_ne _ ht]
          exact h
      · rw [if_neg he]
        unfold linkAbsent at h ⊢
        by_cases ht : t = item.masterTicket
        · subst ht
          simp only [alookup_dictInsert_self]
          rw [alookup_dictErase_self login fs
            (hwf.2 (item.masterTicket, fs) (alookup_mem hl))]
          rfl
        · rw [alookup_dictInsert_ne _ _ ht]
          exact h
  · rw [if_neg hs]
    exact h

theorem cleanupStep_establishes (login : Nat) (env : FollowerEnv) (st : CopierState)
    (item : CloseItem) (hwf : wfFO st.follower_orders)
    (hs : cleanupSuccess env item = true) :
    linkAbsent (cleanupStep login env st item) item.masterTicket login = true := by
  unfold cleanupStep
  rw [if_pos hs]
  cases hl : alookup item.masterTicket st.follower_orders with
  | none =>
    simp [linkAbsent, hl]
  | some fs =>
    try dsimp only
    by_cases he : (dictErase login fs).isEmpty = true
    · rw [if_pos he]
      unfold linkAbsent
      simp only [alookup_dictErase_self _ st.follower_orders hwf.1]
    · rw [if_neg he]
      unfold linkAbsent
      simp only [alookup_dictInsert_self]
      rw [alookup_dictErase_self login fs (hwf.2 (item.masterTicket, fs) (alookup_mem hl))]
      rfl

theorem cleanupExec_linkAbsent (login : Nat) (env : FollowerEnv) :
    ∀ (items : List CloseItem) (st : CopierState) (t : Nat), wfFO st.follower_orders →
      linkAbsent st t login = true →
      linkAbsent (cleanupExec login env st items).1 t login = true := by
  intro items
  induction items with
  | nil =>
    intro st t _ h
    exact h
  | cons i rest ih =>
    intro st t hwf h
    simp only [cleanupExec]
    exact ih (cleanupStep login env st i) t (cleanupStep_wf login env st i hwf)
      (cleanupStep_linkAbsent login env st i t hwf h)

theorem cleanupExec_removes (login : Nat) (env : FollowerEnv) :
    ∀ (items : List CloseItem) (st : CopierState) (item : CloseItem),
      wfFO st.follower_orders → item ∈ items → cleanupSuccess env item = true →
      linkAbsent (cleanupExec login env st items).1 item.masterTicket login = true := by
  intro items
  induction items with
  | nil =>
    intro st item _ hmem
    simp at hmem
  | cons i rest ih =>
    intro st item hwf hmem hs
    simp only [cleanupExec]
    rcases List.mem_cons.mp hmem with he | hmem2
    · subst he
      exact cleanupExec_linkAbsent login env rest (cleanupStep login env st item)
        item.masterTicket (cleanupStep_wf login env st item hwf)
        (cleanupStep_establishes login env st item hwf hs)
    · exact ih (cleanupStep login env st i) item (cleanupStep_wf login env st i hwf) hmem2 hs

theorem cleanupStep_status (login : Nat) (env : FollowerEnv) (st : CopierState)
    (item : CloseItem) : (cleanupStep login env st item).order_sync_status = st.order_sync_status := by
  unfold cleanupStep
  try dsimp only
  repeat' split
  all_goals rfl

theorem cleanupExec_status (login : Nat) (env : FollowerEnv) (st : CopierState)
    (items : List CloseItem) :
    (cleanupExec login env st items).1.order_sync_status = st.order_sync_status := by
  induction items generalizing st with
  | nil => rfl
  | cons item rest ih =>
    simp only [cleanupExec]
    rw [ih]
    exact cleanupStep_status login env st item

/-- C3 (amended): on a successful close/cancel of an orphaned follower
order, `_cleanup_orphaned_orders` removes only the link-table entry for the
acting follower (dropping the master-ticket key once its row is empty); the
status table (`order_sync_status`) and the manual-close record
(`manually_closed`) are left completely untouched by the cleanup pass — they
are not purged within the cycle, and nothing purges `manually_closed`
anywhere. -/
theorem cleanup_purges_only_links (st : CopierState) (ms : List OrderInfo)
    (live : List (Nat × FollowerOrder)) (cfg : AccountConfig) (env : FollowerEnv) :
    (cleanup_orphaned_orders st ms live cfg env).1.order_sync_status = st.order_sync_status ∧
    (cleanup_orphaned_orders st ms live cfg env).1.manually_closed = st.manually_closed ∧
    (∀ (t ft : Nat) (fs : List (Nat × Nat)) (o : FollowerOrder),
      wfFO st.follower_orders →
      alookup t st.follower_orders = some fs →
      alookup cfg.login fs = some ft →
      alookup ft live = some o →
      elemKey t (ms.map (fun m => m.ticket)) = false →
      cleanupSuccess env ⟨ft, o, t⟩ = true →
      linkAbsent (cleanup_orphaned_orders st ms live cfg env).1 t cfg.login = true) := by
  refine ⟨?_, ?_, ?_⟩
  · unfold cleanup_orphaned_orders
    try dsimp only
    exact cleanupExec_status cfg.login env st _
  · unfold cleanup_orphaned_orders
    try dsimp only
    exact cleanupExec_mc cfg.login env st _
  · intro t ft fs o hwf hlink hfs hlive habsent hs
    have hm2 := mem_ordersToCloseByTracking st cfg.login live (ms.map (fun m => m.ticket))
      t ft fs o hlink hfs hlive habsent
    unfold cleanup_orphaned_orders
    try dsimp only
    exact cleanupExec_removes cfg.login env _ st ⟨ft, o, t⟩ hwf
      (List.mem_append_right _ hm2) hs

/-- Witness for C3 (amended) at the concrete orphan scenario: the cleanup
pass leaves the status and manual-close tables untouched and unlinks
`(100, follower 7)`. -/
theorem cleanup_purges_only_links_witness :
    (cleanup_orphaned_orders c3State [] (buildLiveOrders c3EnvF c3Cfg.magic_number)
        c3Cfg c3EnvF).1.order_sync_status = c3State.order_sync_status ∧
    (cleanup_orphaned_orders c3State [] (buildLiveOrders c3EnvF c3Cfg.magic_number)
        c3Cfg c3EnvF).1.manually_closed = c3State.manually_closed ∧
    linkAbsent (cleanup_orphaned_orders c3State [] (buildLiveOrders c3EnvF c3Cfg.magic_number)
        c3Cfg c3EnvF).1 100 c3Cfg.login = true :=
  ⟨(cleanup_purges_only_links c3State [] (buildLiveOrders c3EnvF c3Cfg.magic_number)
      c3Cfg c3EnvF).1,
   (cleanup_purges_only_links c3State [] (buildLiveOrders c3EnvF c3Cfg.magic_number)
      c3Cfg c3EnvF).2.1,
   (cleanup_purges_only_links c3State [] (buildLiveOrders c3EnvF c3Cfg.magic_number)
      c3Cfg c3EnvF).2.2 100 500 [(7, 500)] c3F (by decide) (by decide) (by decide)
      (by decide) (by decide) (by decide)⟩

/-- C3 counterexample: master ticket 100 disappears and follower 7's close
of ticket 500 succeeds, yet within that same cycle the status table still
holds the `(100, follower 7)` entry and the manual-close record still holds
`(100, follower 8)` — only the link table was purged, not all three tables,
and follower 8's manual-close entry is never removed for any follower. -/
theorem cleanup_not_global_counterexample :
    (run_copy_cycle [c3Cfg] c3State c3Env).2 = [Action.close 7 500, Action.close 7 500] ∧
      alookup 100 (run_copy_cycle [c3Cfg] c3State c3Env).1.follower_orders = none ∧
      alookup 100 (run_copy_cycle [c3Cfg] c3State c3Env).1.order_sync_status
        = some [(7, "synced")] ∧
      alookup 100 (run_copy_cycle [c3Cfg] c3State c3Env).1.manually_closed = some [8] := by
  refine ⟨by decide, by decide, by decide, by decide⟩

/-!  C10: a failed master fetch behaves exactly like an empty master
account.  The lemmas below show that a link entry for one follower survives
the sync passes of the other followers, so the affected follower's own
cleanup pass then closes or cancels the linked order. -/

theorem linkPresent_elim {st : CopierState} {t l ft : Nat}
    (h : linkPresent st t l ft = true) :
    ∃ fs, alookup t st.follower_orders = some fs ∧ alookup l fs = some ft := by
  unfold linkPresent at h
  cases h1 : alookup t st.follower_orders with
  | none =>
    rw [h1] at h
    simp at h
  | some fs =>
    rw [h1] at h
    exact ⟨fs, rfl, of_decide_eq_true h⟩

theorem linkPresent_intro {st : CopierState} {t l ft : Nat} {fs : List (Nat × Nat)}
    (h1 : alookup t st.follower_orders = some fs) (h2 : alookup l fs = some ft) :
    linkPresent st t l ft = true := by
  unfold linkPresent
  rw [h1]
  simp [h2]

theorem copy_new_order_link (st : CopierState) (m : OrderInfo) (cfg : AccountConfig)
    (env : FollowerEnv) (t l ft : Nat) (hne : cfg.login ≠ l)
    (h : linkPresent st t l ft = true) :
    linkPresent (copy_new_order st m cfg env).1 t l ft = true := by
  obtain ⟨fs, hfo, hfs⟩ := linkPresent_elim h
  unfold copy_new_order
  try dsimp only
  cases env.symInfoCheck (map_symbol m.symbol cfg) with
  | none => exact h
  | some si =>
    try dsimp only
    cases env.sendResult
        { symbol := map_symbol m.symbol cfg, order_type := m.order_type,
          volume := calculate_lot_size m.volume cfg env.balance
            (env.symInfoPercent (map_symbol m.symbol cfg))
            (env.symInfoRound (map_symbol m.symbol cfg)),
          price := m.price, sl := m.sl, tp := m.tp,
          comment := "Copy:" ++ toString m.ticket, magic := cfg.magic_number } with
    | none => exact h
    | some ftk =>
      unfold linkPresent
      try dsimp only
      by_cases ht : t = m.ticket
      · subst ht
        rw [alookup_dictInsert_self]
        rw [hfo]
        simp only [Option.getD_some]
        rw [decide_eq_true_eq, alookup_dictInsert_ne _ _ (fun e => hne e.symm)]
        exact hfs
      · rw [alookup_dictInsert_ne _ _ ht, hfo]
        simp [hfs]

theorem processUnlinked_link (st : CopierState) (m : OrderInfo) (cfg : AccountConfig)
    (env : FollowerEnv) (t l ft : Nat) (hne : cfg.login ≠ l)
    (h : linkPresent st t l ft = true) :
    linkPresent (processUnlinked st m cfg env).1 t l ft = true := by
  unfold processUnlinked
  try dsimp only
  cases alookup m.ticket st.manually_closed with
  | none => exact copy_new_order_link st m cfg env t l ft hne h
  | some logins =>
    try dsimp only
    by_cases hg : elemKey cfg.login logins = true
    · rw [if_pos hg]
      exact h
    · rw [if_neg hg]
      exact copy_new_order_link st m cfg env t l ft hne h

theorem process_master_order_link (st : CopierState) (m : OrderInfo) (cfg : AccountConfig)
    (env : FollowerEnv) (live : List (Nat × FollowerOrder)) (t l ft : Nat)
    (hne : cfg.login ≠ l) (h : linkPresent st t l ft = true) :
    linkPresent (process_master_order st m cfg env live).1 t l ft = true := by
  obtain ⟨fs, hfo, hfs⟩ := linkPresent_elim h
  unfold process_master_order
  try dsimp only
  cases h1 : alookup m.ticket st.follower_orders with
  | none =>
    try dsimp only
    exact processUnlinked_link st m cfg env t l ft hne h
  | some followers =>
    try dsimp only
    cases h2 : alookup cfg.login followers with
    | none =>
      try dsimp only
      exact processUnlinked_link st m cfg env t l ft hne h
    | some ftk =>
      try dsimp only
      cases h3 : alookup ftk live with
      | some fOrder => exact h
      | none =>
        try dsimp only
        by_cases ht : t = m.ticket
        · subst ht
          have hfe : followers = fs := by
            rw [h1] at hfo
            exact Option.some.inj hfo
          have hl2 : alookup l (dictErase cfg.login followers) = some ft := by
            rw [alookup_dictErase_ne _ (fun e => hne e.symm), hfe]
            exact hfs
          have hemp : (dictErase cfg.login followers).isEmpty = false :=
            isEmpty_eq_false_of_alookup hl2
          rw [if_neg (by simp [hemp])]
          unfold linkPresent
          try dsimp only
          rw [alookup_dictInsert_self]
          simp [hl2]
        · by_cases hemp : (dictErase cfg.login followers).isEmpty = true
          · rw [if_pos hemp]
            unfold linkPresent
            try dsimp only
            rw [alookup_dictErase_ne _ ht, hfo]
            simp [hfs]
          · rw [if_neg hemp]
            unfold linkPresent
            try dsimp only
            rw [alookup_dictInsert_ne _ _ ht, hfo]
            simp [hfs]

theorem processAll_link (cfg : AccountConfig) (env : FollowerEnv)
    (live : List (Nat × FollowerOrder)) (t l ft : Nat) (hne : cfg.login ≠ l) :
    ∀ (ms : List OrderInfo) (st : CopierState), linkPresent st t l ft = true →
      linkPresent (processAll cfg env live st ms).1 t l ft = true := by
  intro ms
  induction ms with
  | nil =>
    intro st h
    exact h
  | cons m rest ih =>
    intro st h
    simp only [processAll]
    exact ih _ (process_master_order_link st m cfg env live t l ft hne h)

theorem cleanupStep_link (login : Nat) (env : FollowerEnv) (st : CopierState)
    (item : CloseItem) (t l ft : Nat) (hne : login ≠ l)
    (h : linkPresent st t l ft = true) :
    linkPresent (cleanupStep login env st item) t l ft = true := by
  obtain ⟨fs, hfo, hfs⟩ := linkPresent_elim h
  unfold cleanupStep
  by_cases hs : cleanupSuccess env item = true
  · rw [if_pos hs]
    cases h1 : alookup item.masterTicket st.follower_orders with
    | none => exact h
    | some fs2 =>
      try dsimp only
      by_cases ht : t = item.masterTicket
      · subst ht
        have hfe : fs2 = fs := by
          rw [h1] at hfo
          exact Option.some.inj hfo
        have hl2 : alookup l (dictErase login fs2) = some ft := by
          rw [alookup_dictErase_ne _ (fun e => hne e.symm), hfe]
          exact hfs
        have hemp : (dictErase login fs2).isEmpty = false := isEmpty_eq_false_of_alookup hl2
        rw [if_neg (by simp [hemp])]
        unfold linkPresent
        try dsimp only
        rw [alookup_dictInsert_self]
        simp [hl2]
      · by_cases hemp : (dictErase login fs2).isEmpty = true
        · rw [if_pos hemp]
          unfold linkPresent
          try dsimp only
          rw [alookup_dictErase_ne _ ht, hfo]
          simp [hfs]
        · rw [if_neg hemp]
          unfold linkPresent
          try dsimp only
          rw [alookup_dictInsert_ne _ _ ht, hfo]
          simp [hfs]
  · rw [if_neg hs]
    exact h

theorem cleanupExec_link (login : Nat) (env : FollowerEnv) (t l ft : Nat) (hne : login ≠ l) :
    ∀ (items : List CloseItem) (st : CopierState), linkPresent st t l ft = true →
      linkPresent (cleanupExec login env st items).1 t l ft = true := by
  intro items
  induction items with
  | nil =>
    intro st h
    exact h
  | cons i rest ih =>
    intro st h
    simp only [cleanupExec]
    exact ih _ (cleanupStep_link login env st i t l ft hne h)

theorem sync_orders_to_follower_link (st : CopierState) (cfg : AccountConfig)
    (ms : List OrderInfo) (env : FollowerEnv) (t l ft : Nat) (hne : cfg.login ≠ l)
    (h : linkPresent st t l ft = true) :
    linkPresent (sync_orders_to_follower st cfg ms env).1 t l ft = true := by
  unfold sync_orders_to_follower
  by_cases hconn : env.connectOk = true
  · rw [if_pos hconn]
    try dsimp only
    unfold cleanup_orphaned_orders
    try dsimp only
    exact cleanupExec_link cfg.login env t l ft hne _ _
      (processAll_link cfg env _ t l ft hne ms st h)
  · rw [if_neg hconn]
    exact h

theorem runFollowers_link (ms : List OrderInfo) (env : CycleEnv) (t l ft : Nat) :
    ∀ (pre : List AccountConfig) (st : CopierState), (∀ c ∈ pre, c.login ≠ l) →
      linkPresent st t l ft = true →
      linkPresent (runFollowers ms env st pre).1 t l ft = true := by
  intro pre
  induction pre with
  | nil =>
    intro st _ h
    exact h
  | cons c rest ih =>
    intro st hpre h
    simp only [runFollowers]
    by_cases hc : c.enabled = true
    · rw [if_pos hc]
      try dsimp only
      refine ih _ (fun c2 hc2 => hpre c2 (List.mem_cons_of_mem _ hc2)) ?_
      exact sync_orders_to_follower_link st c ms _ t l ft
        (hpre c (List.mem_cons_self _ _)) h
    · rw [if_neg hc]
      exact ih _ (fun c2 hc2 => hpre c2 (List.mem_cons_of_mem _ hc2)) h

theorem removedTickets_empty_current (last : List (Nat × OrderInfo)) :
    removedTickets last [] = keysOf last := by
  unfold removedTickets
  refine List.filter_eq_self.mpr ?_
  intro a _
  rfl

theorem detect_empty_current_changes (st : CopierState) (hne : st.last_master_state ≠ []) :
    (detect_master_changes st []).has_changes = true := by
  show (detectBody st.last_master_state []).has_changes = true
  have h2 : (removedTickets st.last_master_state []).isEmpty = false := by
    rw [removedTickets_empty_current]
    cases hll : st.last_master_state with
    | nil => exact absurd hll hne
    | cons p r => rfl
  unfold detectBody
  try dsimp only
  rw [h2]
  simp

theorem run_copy_cycle_trace_of_changes (followers : List AccountConfig) (st : CopierState)
    (env : CycleEnv)
    (h : (detect_master_changes st
      (buildMasterState (get_master_orders env.masterFetch))).has_changes = true) :
    (run_copy_cycle followers st env).2
      = (runFollowers (get_master_orders env.masterFetch) env st followers).2 := by
  unfold run_copy_cycle
  try dsimp only
  rw [if_pos h]

theorem runFollowers_mem_of_follower (ms : List OrderInfo) (env : CycleEnv) :
    ∀ (pre : List AccountConfig) (st : CopierState) (cfg : AccountConfig)
      (post : List AccountConfig) (a : Action), cfg.enabled = true →
      a ∈ (sync_orders_to_follower (runFollowers ms env st pre).1 cfg ms
        (env.followerEnv cfg.login)).2 →
      a ∈ (runFollowers ms env st (pre ++ cfg :: post)).2 := by
  intro pre
  induction pre with
  | nil =>
    intro st cfg post a hen ha
    simp only [List.nil_append, runFollowers]
    rw [if_pos hen]
    exact List.mem_append_left _ ha
  | cons c rest ih =>
    intro st cfg post a hen ha
    simp only [List.cons_append, runFollowers]
    by_cases hc : c.enabled = true
    · rw [if_pos hc]
      try dsimp only
      refine List.mem_append_right _ ?_
      refine ih _ cfg post a hen ?_
      simpa only [runFollowers, if_pos hc] using ha
    · rw [if_neg hc]
      refine ih _ cfg post a hen ?_
      simpa only [runFollowers, if_neg hc] using ha

/-- C10: when the master fetch fails, `get_master_orders` returns `[]` and
the cycle treats it exactly like an empty master account: the change
detector reports every previously tracked ticket as removed, and — for an
enabled, connectable follower holding a live linked order — the orphan
cleanup issues a close (position) or cancel (pending) for that linked
follower order within the cycle, regardless of the other followers processed
before it. -/
theorem master_fetch_failure_closes_followers
    (pre post : List AccountConfig) (cfg : AccountConfig) (st : CopierState) (env : CycleEnv)
    (t ft : Nat) (o : FollowerOrder)
    (hfetch : env.masterFetch = none)
    (hlast : st.last_master_state ≠ [])
    (hpre : ∀ c ∈ pre, c.login ≠ cfg.login)
    (henabled : cfg.enabled = true)
    (hconn : (env.followerEnv cfg.login).connectOk = true)
    (hlink : linkPresent st t cfg.login ft = true)
    (hlive : alookup ft (buildLiveOrders (env.followerEnv cfg.login) cfg.magic_number)
      = some o) :
    get_master_orders env.masterFetch = [] ∧
    removedTickets st.last_master_state (buildMasterState (get_master_orders env.masterFetch))
      = keysOf st.last_master_state ∧
    (detect_master_changes st
      (buildMasterState (get_master_orders env.masterFetch))).has_changes = true ∧
    (Action.close cfg.login ft ∈ (run_copy_cycle (pre ++ cfg :: post) st env).2 ∨
      Action.cancel cfg.login ft ∈ (run_copy_cycle (pre ++ cfg :: post) st env).2) := by
  have hmo : get_master_orders env.masterFetch = [] := by
    rw [hfetch]
    rfl
  have hbm : buildMasterState (get_master_orders env.masterFetch) = [] := by
    rw [hmo]
    rfl
  have hdet : (detect_master_changes st
      (buildMasterState (get_master_orders env.masterFetch))).has_changes = true := by
    rw [hbm]
    exact detect_empty_current_changes st hlast
  refine ⟨hmo, ?_, hdet, ?_⟩
  · rw [hbm]
    exact removedTickets_empty_current _
  · have htr := run_copy_cycle_trace_of_changes (pre ++ cfg :: post) st env hdet
    rw [htr, hmo]
    have hl2 : linkPresent (runFollowers [] env st pre).1 t cfg.login ft = true :=
      runFollowers_link [] env t cfg.login ft pre st hpre hlink
    obtain ⟨fs2, hfo2, hfs2⟩ := linkPresent_elim hl2
    have hm2 := mem_ordersToCloseByTracking (runFollowers [] env st pre).1 cfg.login
      (buildLiveOrders (env.followerEnv cfg.login) cfg.magic_number)
      (([] : List OrderInfo).map (fun m => m.ticket)) t ft fs2 o hfo2 hfs2 hlive rfl
    have haction : cleanupAction cfg.login ⟨ft, o, t⟩
        ∈ (cleanup_orphaned_orders (runFollowers [] env st pre).1 []
          (buildLiveOrders (env.followerEnv cfg.login) cfg.magic_number) cfg
          (env.followerEnv cfg.login)).2 := by
      unfold cleanup_orphaned_orders
      try dsimp only
      rw [cleanupExec_trace]
      exact List.mem_map_of_mem _ (List.mem_append_right _ hm2)
    have hsync : cleanupAction cfg.login ⟨ft, o, t⟩
        ∈ (sync_orders_to_follower (runFollowers [] env st pre).1 cfg []
          (env.followerEnv cfg.login)).2 := by
      unfold sync_orders_to_follower
      rw [if_pos hconn]
      try dsimp only
      exact List.mem_append_right _ haction
    have hrf := runFollowers_mem_of_follower [] env pre st cfg post
      (cleanupAction cfg.login ⟨ft, o, t⟩) henabled hsync
    by_cases hty : o.type = 0 ∨ o.type = 1
    · left
      have he : cleanupAction cfg.login ⟨ft, o, t⟩ = Action.close cfg.login ft := by
        unfold cleanupAction
        rw [if_pos hty]
      exact he ▸ hrf
    · right
      have he : cleanupAction cfg.login ⟨ft, o, t⟩ = Action.cancel cfg.login ft := by
        unfold cleanupAction
        rw [if_neg hty]
      exact he ▸ hrf

/-- Witness for C10: the master connection fails while follower 4 holds live
position 700 linked to master ticket 400; the cycle reports ticket 400
removed and closes follower ticket 700. -/
theorem master_fetch_failure_closes_followers_witness :
    get_master_orders c10Env.masterFetch = [] ∧
    removedTickets c10State.last_master_state
      (buildMasterState (get_master_orders c10Env.masterFetch))
      = keysOf c10State.last_master_state ∧
    (detect_master_changes c10State
      (buildMasterState (get_master_orders c10Env.masterFetch))).has_changes = true ∧
    (Action.close c10Cfg.login 700 ∈ (run_copy_cycle ([] ++ c10Cfg :: []) c10State c10Env).2 ∨
      Action.cancel c10Cfg.login 700 ∈ (run_copy_cycle ([] ++ c10Cfg :: []) c10State c10Env).2) :=
  master_fetch_failure_closes_followers [] [] c10Cfg c10State c10Env 400 700 c10F rfl
    (by decide) (fun c hc => absurd hc (List.not_mem_nil c)) rfl rfl (by decide) (by decide)

end MT5

